import Mathlib

/-!
Verification development for the DocSanitizer detection-and-masking core
(`src/lib/detector.ts`).

The embedding works on `List Char` (JS strings restricted to the ASCII
inputs used here, where UTF-16 code-unit offsets coincide with character
offsets).  JS regular expressions are embedded via a small backtracking
matcher (`RE`, `mrun`) whose semantics follow the JS engine: leftmost
match start, greedy quantifiers, ordered alternation, `\b` word
boundaries, and a global (`g` flag) scan that resumes at the end of the
previous match.  Each rule pattern from the source is transcribed into an
`RE` value.  The module-level mutable allocator (`entityCounters`) and the
`seenPositions` set are threaded through explicitly as functional state.
-/

namespace DocSanitizer

/-- JS `\w` word characters: `[A-Za-z0-9_]` (ASCII only). -/
def isWordChar (c : Char) : Bool :=
  (('a' ≤ c && c ≤ 'z') || ('A' ≤ c && c ≤ 'Z') || ('0' ≤ c && c ≤ '9') || c = '_')

/-- JS `\s` whitespace (approximated by the ASCII whitespace relevant here). -/
def isSpaceChar (c : Char) : Bool :=
  (c = ' ' || c = '\t' || c = '\n' || c = '\r' || c = '\x0b' || c = '\x0c')

/-- Regular-expression syntax used by the detection rules. -/
inductive RE where
  | eps : RE
  | cls : (Char → Bool) → RE
  | cat : RE → RE → RE
  | alt : RE → RE → RE
  | star : RE → RE
  | wb : RE

/-- `\b`: exactly one of the previous / next characters is a word character. -/
def wbHolds (pre : Option Char) (s : List Char) : Bool :=
  let a := match pre with
    | none => false
    | some c => isWordChar c
  let b := match s with
    | [] => false
    | c :: _ => isWordChar c
  a != b

/-- Backtracking matcher in continuation-passing style.  The continuation
receives the previous character (for `\b`) and the remaining input, and
returns the remaining input after the whole match on success.  Alternation
is ordered (left first), `star` is greedy, and a `star` iteration must
consume input (the JS engine exits a quantifier loop on an empty
iteration).  `fuel` bounds the recursion depth; it is instantiated large
enough at the top level that it never runs out. -/
def mrun : Nat → RE → Option Char → List Char →
    (Option Char → List Char → Option (List Char)) → Option (List Char)
  | 0, _, _, _, _ => none
  | _ + 1, RE.eps, pre, s, k => k pre s
  | _ + 1, RE.cls p, _, s, k =>
      match s with
      | [] => none
      | c :: rest => if p c then k (some c) rest else none
  | fuel + 1, RE.cat a b, pre, s, k =>
      mrun fuel a pre s (fun pre2 s2 => mrun fuel b pre2 s2 k)
  | fuel + 1, RE.alt a b, pre, s, k =>
      (mrun fuel a pre s k).orElse (fun _ => mrun fuel b pre s k)
  | fuel + 1, RE.star a, pre, s, k =>
      (mrun fuel a pre s (fun pre2 s2 =>
        if s2.length < s.length then mrun fuel (RE.star a) pre2 s2 k else none)).orElse
        (fun _ => k pre s)
  | _ + 1, RE.wb, pre, s, k => if wbHolds pre s then k pre s else none

/-- Structural size of a pattern, used to compute a sufficient fuel bound. -/
def reSize : RE → Nat
  | RE.eps => 1
  | RE.cls _ => 1
  | RE.cat a b => reSize a + reSize b + 1
  | RE.alt a b => reSize a + reSize b + 1
  | RE.star a => reSize a + 1
  | RE.wb => 1

/-- Try to match `re` at the current position; returns the length of the
first match found in backtracking order (JS semantics). -/
def tryMatch (re : RE) (pre : Option Char) (s : List Char) : Option Nat :=
  match mrun ((reSize re + 2) * (s.length + 2)) re pre s (fun _ rest => some rest) with
  | none => none
  | some rest => some (s.length - rest.length)

/-- Scan loop of `RegExp.exec` with the `g` flag: find the leftmost match at
or after the current index, record its span, resume after it (advancing by
one on an empty match). -/
def findMatchesAux : Nat → RE → Option Char → List Char → Nat → List (Nat × Nat)
  | 0, _, _, _, _ => []
  | f + 1, re, pre, s, i =>
      match tryMatch re pre s with
      | some n =>
          if n = 0 then
            (i, i) ::
              (match s with
               | [] => []
               | c :: rest => findMatchesAux f re (some c) rest (i + 1))
          else
            (i, i + n) ::
              findMatchesAux f re ((s.take n).getLast?) (s.drop n) (i + n)
      | none =>
          match s with
          | [] => []
          | c :: rest => findMatchesAux f re (some c) rest (i + 1)

/-- All matches of `re` in `s` as half-open spans, in JS `g`-flag order. -/
def findMatches (re : RE) (s : List Char) : List (Nat × Nat) :=
  findMatchesAux (s.length + 1) re none s 0

/-! Pattern-building helpers. -/

/-- Single literal character. -/
def chrRE (c : Char) : RE := RE.cls (fun x => x = c)

/-- Single literal character, case-insensitive (`i` flag), ASCII folding. -/
def chrCI (c : Char) : RE := RE.cls (fun x => x.toLower = c.toLower)

/-- Literal string. -/
def strRE (s : String) : RE := s.data.foldr (fun c r => RE.cat (chrRE c) r) RE.eps

/-- Literal string, case-insensitive. -/
def strCI (s : String) : RE := s.data.foldr (fun c r => RE.cat (chrCI c) r) RE.eps

/-- Literal character list (used for dynamically built patterns where the
source escapes every regex metacharacter, i.e. matches the text literally),
case-insensitive. -/
def litCI (s : List Char) : RE := s.foldr (fun c r => RE.cat (chrCI c) r) RE.eps

/-- `r?` (greedy). -/
def optRE (r : RE) : RE := RE.alt r RE.eps

/-- `r{n}`: exactly `n` copies. -/
def repN : Nat → RE → RE
  | 0, _ => RE.eps
  | n + 1, r => RE.cat r (repN n r)

/-- `r{0,n}` (greedy), as nested optionals `(r (r ...)?)?`. -/
def repUpTo : Nat → RE → RE
  | 0, _ => RE.eps
  | n + 1, r => optRE (RE.cat r (repUpTo n r))

/-- `r{m,n}` (greedy). -/
def repRange (m n : Nat) (r : RE) : RE := RE.cat (repN m r) (repUpTo (n - m) r)

/-- `r{m,}` (greedy). -/
def repAtLeast (m : Nat) (r : RE) : RE := RE.cat (repN m r) (RE.star r)

/-- `r+` (greedy). -/
def plusRE (r : RE) : RE := repAtLeast 1 r

/-- Character-class helpers. -/
def digitC : RE := RE.cls Char.isDigit

def inRange (lo hi : Char) (c : Char) : Bool := lo ≤ c && c ≤ hi

/-- Chained ordered alternation (left-to-right, JS `|`). -/
def altsRE : List RE → RE
  | [] => RE.eps
  | [r] => r
  | r :: rest => RE.alt r (altsRE rest)

/-- Sequence of patterns. -/
def seqRE (l : List RE) : RE := l.foldr RE.cat RE.eps

/-- Anchored full-string test (`^pattern$`, used by `RegExp.test` on an
anchored pattern). -/
def reFullTest (re : RE) (s : List Char) : Bool :=
  (mrun ((reSize re + 2) * (s.length + 2)) re none s
    (fun _ rest => if rest = [] then some [] else none)).isSome

/-! String helpers on `List Char` mirroring the JS string operations. -/

/-- Shorthand for string-literal data. -/
def cl (s : String) : List Char := s.data

/-- `content.slice(s, e)` for `s ≤ e` (the only way it is used here). -/
def subSlice (content : List Char) (s e : Nat) : List Char :=
  (content.take e).drop s

/-- Does `pat` occur as a contiguous substring of `s`? -/
def hasSubstr : List Char → List Char → Bool
  | _, [] => false
  | pat, c :: rest => pat.isPrefixOf (c :: rest) || hasSubstr pat rest

/-- `hasSubstr` including the empty-suffix position (JS `includes`). -/
def includesJS (s pat : List Char) : Bool :=
  pat.isPrefixOf s || hasSubstr pat s

/-- JS `String.replace(pat, repl)` with a plain-string pattern: replaces the
first occurrence only; `pat` is nonempty wherever this is used. -/
def replaceFirst (pat repl : List Char) : List Char → List Char
  | [] => []
  | c :: rest =>
      if pat ≠ [] ∧ pat.isPrefixOf (c :: rest) then
        repl ++ (c :: rest).drop pat.length
      else
        c :: replaceFirst pat repl rest

/-- JS `String.trim` (both ends). -/
def trimJS (s : List Char) : List Char :=
  ((s.dropWhile isSpaceChar).reverse.dropWhile isSpaceChar).reverse

/-- JS `toLowerCase` (ASCII). -/
def lowerJS (s : List Char) : List Char := s.map Char.toLower

/-- Decimal digit list to number. -/
def digitsToNat (ds : List Char) : Nat :=
  ds.foldl (fun n c => n * 10 + (c.toNat - 48)) 0

/-- JS `parseInt(s, 10)` restricted to the non-negative case: parses the
leading run of digits, `none` (`NaN`) when there is none. -/
def parseIntJS (s : List Char) : Option Nat :=
  let ds := s.takeWhile Char.isDigit
  if ds = [] then none else some (digitsToNat ds)

def isUpperAlpha (c : Char) : Bool := inRange 'A' 'Z' c

def isLowerAlpha (c : Char) : Bool := inRange 'a' 'z' c

def isAlpha (c : Char) : Bool := isUpperAlpha c || isLowerAlpha c

/-! ### Validators (detector.ts lines 14-68) -/

/-- Payload of the Luhn loop (detector.ts lines 19-32): digits are supplied
rightmost first, `isEven` starts `false` and toggles each step; a digit seen
with `isEven = true` is doubled, subtracting 9 when the result exceeds 9. -/
def luhnLoop : List Nat → Bool → Nat
  | [], _ => 0
  | d :: rest, isEven =>
      (if isEven then (if d * 2 > 9 then d * 2 - 9 else d * 2) else d) +
        luhnLoop rest (!isEven)

def charToDigit (c : Char) : Nat := c.toNat - 48

/-- `isValidLuhn` (detector.ts lines 15-35): strip non-digits
(`num.replace(/\D/g, '')`), reject length outside 13..19, accept iff the
Luhn sum from the rightmost digit is divisible by 10. -/
def isValidLuhn (num : List Char) : Bool :=
  let digits := num.filter Char.isDigit
  if digits.length < 13 || digits.length > 19 then false
  else decide (luhnLoop (digits.reverse.map charToDigit) false % 10 = 0)

/-- Anchored shape `^[A-Z]{2}\d{2}[A-Z0-9]+$` of an IBAN candidate. -/
def ibanShapeRE : RE :=
  seqRE [repN 2 (RE.cls isUpperAlpha), repN 2 digitC,
    plusRE (RE.cls (fun c => isUpperAlpha c || c.isDigit))]

/-- `isValidIBAN` (detector.ts lines 38-43): strip whitespace, uppercase,
length 15..34, then the anchored structural pattern. -/
def isValidIBAN (iban : List Char) : Bool :=
  let cleanIban := (iban.filter (fun c => !isSpaceChar c)).map Char.toUpper
  if cleanIban.length < 15 || cleanIban.length > 34 then false
  else reFullTest ibanShapeRE cleanIban

/-- Anchored shape `^[a-zA-Z0-9.-]+\.[a-zA-Z]{2,}$` of an email domain. -/
def emailDomainRE : RE :=
  seqRE [plusRE (RE.cls (fun c => isAlpha c || c.isDigit || c = '.' || c = '-')),
    chrRE '.', repAtLeast 2 (RE.cls isAlpha)]

/-- `isValidEmail` (detector.ts lines 46-55). -/
def isValidEmail (email : List Char) : Bool :=
  if includesJS email (cl ("..")) || (cl (".")).isPrefixOf email ||
      (cl (".")).isSuffixOf email then false
  else
    match email.splitOn '@' with
    | [localPart, domain] =>
        if localPart.length > 64 || domain.length > 253 then false
        else reFullTest emailDomainRE domain
    | _ => false

/-- `isValidIPv4` (detector.ts lines 58-68): exactly four dot-separated
parts, each parsing as an integer 0..255 whose canonical decimal form equals
the part (rejecting leading zeros such as `01`). -/
def isValidIPv4 (ip : List Char) : Bool :=
  let parts := ip.splitOn '.'
  if parts.length ≠ 4 then false
  else parts.all (fun part =>
    match parseIntJS part with
    | none => false
    | some num => num ≤ 255 && part = (Nat.repr num).data)

/-! ### Data model (src/types/index.ts, fields consumed by the detector) -/

inductive Category where
  | pii | company | financial | technical | custom
  deriving DecidableEq, Repr

structure Span where
  start : Nat
  /-- the `end` field of `position` (renamed: `end` is reserved in Lean). -/
  stop : Nat
  deriving DecidableEq, Repr

structure Detection where
  id : List Char
  text : List Char
  category : Category
  subcategory : List Char
  confidence : Nat
  position : Span
  suggestedPlaceholder : List Char
  context : List Char
  approved : Bool
  deriving DecidableEq, Repr

structure DetectionRule where
  id : List Char
  name : List Char
  category : Category
  subcategory : List Char
  pattern : RE
  confidence : Nat
  placeholderTemplate : List Char
  validator : Option (List Char → Bool)

structure NamedEntity where
  name : List Char
  aliases : List (List Char)

structure CompanyInfo where
  primaryName : List Char
  aliases : List (List Char)
  domain : List Char
  internalDomains : List (List Char)

structure CustomEntities where
  clients : List NamedEntity
  projects : List NamedEntity
  products : List NamedEntity
  keywords : List (List Char)
  names : List (List Char)

structure DetectionSettings where
  minConfidence : Nat
  autoMaskHighConfidence : Bool
  categoriesEnabled : List Category

/-- `Config` restricted to the fields the detector reads (export
preferences and logo settings are never consumed by detector.ts). -/
structure Config where
  companyInfo : CompanyInfo
  customEntities : CustomEntities
  detectionSettings : DetectionSettings

/-- A person/organization span returned by the external recognizer
(`extractEntities`); `stop` models its `end` field. -/
structure NerSpan where
  text : List Char
  start : Nat
  stop : Nat

structure NerResult where
  success : Bool
  persons : List NerSpan
  organizations : List NerSpan

/-- The external `window.api.extractEntities` collaborator: may throw /
reject (`Except.error`) or resolve (`Except.ok`). -/
def NerApi : Type :=
  List Char → List (List Char) → Except (List Char) NerResult

/-! ### Built-in rule registry (detector.ts lines 71-416)

Each `pattern` transcribes the JS regex of the rule with the same id, with
`i`-flagged patterns using the case-insensitive character builders. -/

/-- `[a-zA-Z0-9]` -/
def alnumC : RE := RE.cls (fun c => isAlpha c || c.isDigit)

/-- `[A-Z0-9]` -/
def upperDigitC : RE := RE.cls (fun c => isUpperAlpha c || c.isDigit)

/-- `[a-zA-Z0-9_-]` -/
def wordDashC : RE := RE.cls (fun c => isAlpha c || c.isDigit || c = '_' || c = '-')

/-- `[0-9a-fA-F]` -/
def hexC : RE := RE.cls (fun c => c.isDigit || inRange 'a' 'f' c || inRange 'A' 'F' c)

/-- `[-.\s]` -/
def sepC : RE := RE.cls (fun c => c = '-' || c = '.' || isSpaceChar c)

/-- `[-\s]` -/
def dashSpaceC : RE := RE.cls (fun c => c = '-' || isSpaceChar c)

/-- `[_-]` -/
def usDashC : RE := RE.cls (fun c => c = '_' || c = '-')

/-- `\s` -/
def spaceC : RE := RE.cls isSpaceChar

/-- `[^\s]` -/
def nonSpaceC : RE := RE.cls (fun c => !isSpaceChar c)

/-- dash-or-slash class (date separators) -/
def dashSlashC : RE := RE.cls (fun c => c = '-' || c = '/')

/-- One octet alternative of the IPv4 pattern:
`25[0-5]|2[0-4][0-9]|[01]?[0-9][0-9]?`. -/
def ipv4Octet : RE :=
  altsRE [seqRE [strRE ("25"), RE.cls (inRange '0' '5')],
    seqRE [chrRE '2', RE.cls (inRange '0' '4'), digitC],
    seqRE [optRE (RE.cls (fun c => c = '0' || c = '1')), digitC, optRE digitC]]

def builtInRules : List DetectionRule := [
  -- PII - Email
  { id := cl ("pii-email"), name := cl ("Email Address"),
    category := Category.pii, subcategory := cl ("email"),
    pattern := seqRE [
      plusRE (RE.cls (fun c => isAlpha c || c.isDigit || c = '.' || c = '_' || c = '%' || c = '+' || c = '-')),
      chrRE '@',
      plusRE (RE.cls (fun c => isAlpha c || c.isDigit || c = '.' || c = '-')),
      chrRE '.', repAtLeast 2 (RE.cls isAlpha)],
    confidence := 95, placeholderTemplate := cl ("<EMAIL_\x7bn\x7d>"),
    validator := some isValidEmail },
  -- PII - Phone (International)
  { id := cl ("pii-phone-intl"), name := cl ("Phone Number (International)"),
    category := Category.pii, subcategory := cl ("phone"),
    pattern := seqRE [
      optRE (seqRE [optRE (chrRE '+'), RE.cls (inRange '1' '9'), repUpTo 2 digitC, optRE sepC]),
      optRE (chrRE '('), repRange 2 4 digitC, optRE (chrRE ')'),
      optRE sepC, repRange 3 4 digitC, optRE sepC, repRange 3 4 digitC],
    confidence := 80, placeholderTemplate := cl ("<PHONE_\x7bn\x7d>"),
    validator := none },
  -- PII - Saudi Phone
  { id := cl ("pii-saudi-phone"), name := cl ("Saudi Phone Number"),
    category := Category.pii, subcategory := cl ("phone"),
    pattern := seqRE [
      optRE (altsRE [seqRE [optRE (chrRE '+'), strRE ("966")], strRE ("00966"), chrRE '0']),
      chrRE '5', repN 8 digitC],
    confidence := 90, placeholderTemplate := cl ("<PHONE_\x7bn\x7d>"),
    validator := none },
  -- PII - Saudi National ID
  { id := cl ("pii-saudi-id"), name := cl ("Saudi National ID"),
    category := Category.pii, subcategory := cl ("national_id"),
    pattern := seqRE [RE.wb, RE.cls (fun c => c = '1' || c = '2'), repN 9 digitC, RE.wb],
    confidence := 85, placeholderTemplate := cl ("<NATIONAL_ID_\x7bn\x7d>"),
    validator := none },
  -- PII - Iqama (Resident ID)
  { id := cl ("pii-iqama"), name := cl ("Iqama Number"),
    category := Category.pii, subcategory := cl ("national_id"),
    pattern := seqRE [RE.wb, chrRE '2', repN 9 digitC, RE.wb],
    confidence := 80, placeholderTemplate := cl ("<IQAMA_\x7bn\x7d>"),
    validator := none },
  -- PII - SSN
  { id := cl ("pii-ssn"), name := cl ("Social Security Number"),
    category := Category.pii, subcategory := cl ("ssn"),
    pattern := seqRE [RE.wb, repN 3 digitC, chrRE '-', repN 2 digitC, chrRE '-',
      repN 4 digitC, RE.wb],
    confidence := 95, placeholderTemplate := cl ("<SSN_\x7bn\x7d>"),
    validator := none },
  -- PII - IBAN (General)
  { id := cl ("pii-iban"), name := cl ("IBAN"),
    category := Category.pii, subcategory := cl ("iban"),
    pattern := seqRE [RE.wb, repN 2 (RE.cls isUpperAlpha), repN 2 digitC,
      repRange 4 30 upperDigitC, RE.wb],
    confidence := 90, placeholderTemplate := cl ("<IBAN_\x7bn\x7d>"),
    validator := some isValidIBAN },
  -- PII - Saudi IBAN
  { id := cl ("pii-saudi-iban"), name := cl ("Saudi IBAN"),
    category := Category.pii, subcategory := cl ("iban"),
    pattern := seqRE [RE.wb, strRE ("SA"), repN 2 digitC, repN 20 upperDigitC, RE.wb],
    confidence := 95, placeholderTemplate := cl ("<IBAN_\x7bn\x7d>"),
    validator := some isValidIBAN },
  -- PII - Credit Card
  { id := cl ("pii-credit-card"), name := cl ("Credit Card Number"),
    category := Category.pii, subcategory := cl ("credit_card"),
    pattern := seqRE [RE.wb, repN 3 (seqRE [repN 4 digitC, optRE dashSpaceC]),
      repN 4 digitC, RE.wb],
    confidence := 85, placeholderTemplate := cl ("<CARD_NUMBER_\x7bn\x7d>"),
    validator := some isValidLuhn },
  -- PII - Passport
  { id := cl ("pii-passport"), name := cl ("Passport Number"),
    category := Category.pii, subcategory := cl ("passport"),
    pattern := seqRE [RE.wb, repRange 1 2 (RE.cls isUpperAlpha), repRange 6 9 digitC, RE.wb],
    confidence := 70, placeholderTemplate := cl ("<PASSPORT_\x7bn\x7d>"),
    validator := none },
  -- Technical - IP Address (IPv4)
  { id := cl ("tech-ipv4"), name := cl ("IPv4 Address"),
    category := Category.technical, subcategory := cl ("ip_address"),
    pattern := seqRE [RE.wb, repN 3 (seqRE [ipv4Octet, chrRE '.']), ipv4Octet, RE.wb],
    confidence := 95, placeholderTemplate := cl ("<IP_ADDRESS_\x7bn\x7d>"),
    validator := some isValidIPv4 },
  -- Technical - IPv6 Address
  { id := cl ("tech-ipv6"), name := cl ("IPv6 Address"),
    category := Category.technical, subcategory := cl ("ip_address"),
    pattern := seqRE [RE.wb, repN 7 (seqRE [repRange 1 4 hexC, chrRE ':']),
      repRange 1 4 hexC, RE.wb],
    confidence := 95, placeholderTemplate := cl ("<IP_ADDRESS_\x7bn\x7d>"),
    validator := none },
  -- Technical - API Key patterns
  { id := cl ("tech-api-key"), name := cl ("API Key"),
    category := Category.technical, subcategory := cl ("api_key"),
    pattern := seqRE [
      altsRE [seqRE [strCI ("api"), optRE usDashC, strCI ("key")],
        strCI ("apikey"),
        seqRE [strCI ("api"), optRE usDashC, strCI ("secret")],
        seqRE [strCI ("secret"), optRE usDashC, strCI ("key")],
        seqRE [strCI ("access"), optRE usDashC, strCI ("token")],
        seqRE [strCI ("auth"), optRE usDashC, strCI ("token")]],
      plusRE (RE.cls (fun c => c = '=' || c = ':' || isSpaceChar c)),
      optRE (RE.cls (fun c => c = '"' || c = '\'')),
      repAtLeast 20 wordDashC,
      optRE (RE.cls (fun c => c = '"' || c = '\''))],
    confidence := 90, placeholderTemplate := cl ("<API_KEY_\x7bn\x7d>"),
    validator := none },
  -- Technical - AWS Keys
  { id := cl ("tech-aws-key"), name := cl ("AWS Access Key"),
    category := Category.technical, subcategory := cl ("api_key"),
    pattern := seqRE [RE.wb,
      altsRE [strRE ("AKIA"), strRE ("ABIA"), strRE ("ACCA"), strRE ("ASIA")],
      repN 16 upperDigitC, RE.wb],
    confidence := 95, placeholderTemplate := cl ("<AWS_KEY_\x7bn\x7d>"),
    validator := none },
  -- Technical - URLs with credentials
  { id := cl ("tech-url-creds"), name := cl ("URL with Credentials"),
    category := Category.technical, subcategory := cl ("credentials"),
    pattern := seqRE [strRE ("http"), optRE (chrRE 's'), strRE ("://"),
      plusRE (RE.cls (fun c => c ≠ ':')), chrRE ':',
      plusRE (RE.cls (fun c => c ≠ '@')), chrRE '@', plusRE nonSpaceC],
    confidence := 95, placeholderTemplate := cl ("<CREDENTIAL_URL_\x7bn\x7d>"),
    validator := none },
  -- Technical - Private Keys
  { id := cl ("tech-private-key"), name := cl ("Private Key"),
    category := Category.technical, subcategory := cl ("credentials"),
    pattern := seqRE [strRE ("-----BEGIN "),
      optRE (altsRE [strRE ("RSA "), strRE ("DSA "), strRE ("EC "), strRE ("OPENSSH ")]),
      strRE ("PRIVATE KEY-----")],
    confidence := 100, placeholderTemplate := cl ("<PRIVATE_KEY>"),
    validator := none },
  -- Financial - Currency amounts (various currencies)
  { id := cl ("fin-currency"), name := cl ("Currency Amount"),
    category := Category.financial, subcategory := cl ("amount"),
    pattern := RE.alt
      (seqRE [
        altsRE [RE.cls (fun c => c = '$' || c = '€' || c = '£' || c = '¥' || c = '₹'),
          strCI ("SAR"), strCI ("USD"), strCI ("EUR"), strCI ("GBP"), strCI ("AED"),
          strCI ("KWD"), strCI ("BHD"), strCI ("OMR"), strCI ("QAR")],
        RE.star spaceC,
        plusRE (RE.cls (fun c => c.isDigit || c = ',')),
        optRE (seqRE [chrRE '.', repRange 1 2 digitC])])
      (seqRE [RE.wb,
        plusRE (RE.cls (fun c => c.isDigit || c = ',')),
        optRE (seqRE [chrRE '.', repRange 1 2 digitC]),
        RE.star spaceC,
        altsRE [seqRE [strCI ("dollar"), optRE (chrCI 's')],
          seqRE [strCI ("euro"), optRE (chrCI 's')],
          seqRE [strCI ("pound"), optRE (chrCI 's')],
          seqRE [strCI ("riyal"), optRE (chrCI 's')],
          seqRE [strCI ("dirham"), optRE (chrCI 's')],
          strCI ("SAR"), strCI ("USD"), strCI ("EUR"), strCI ("GBP"), strCI ("AED")],
        RE.wb]),
    confidence := 80, placeholderTemplate := cl ("<AMOUNT_\x7bn\x7d>"),
    validator := none },
  -- Financial - Large numbers (potential financial)
  { id := cl ("fin-large-number"), name := cl ("Large Number"),
    category := Category.financial, subcategory := cl ("amount"),
    pattern := seqRE [RE.wb, repRange 1 3 digitC,
      plusRE (seqRE [chrRE ',', repN 3 digitC]),
      optRE (seqRE [chrRE '.', repRange 1 2 digitC]), RE.wb],
    confidence := 60, placeholderTemplate := cl ("<NUMBER_\x7bn\x7d>"),
    validator := none },
  -- Financial - Account numbers
  { id := cl ("fin-account"), name := cl ("Account Number"),
    category := Category.financial, subcategory := cl ("account"),
    pattern := seqRE [RE.wb,
      altsRE [strCI ("account"), strCI ("acct"), seqRE [chrCI 'a', chrRE '/', chrCI 'c']],
      RE.star (RE.cls (fun c => c = '#' || c = ':' || isSpaceChar c)),
      repRange 6 20 digitC, RE.wb],
    confidence := 85, placeholderTemplate := cl ("<ACCOUNT_\x7bn\x7d>"),
    validator := none },
  -- Financial - Percentages (potentially sensitive)
  { id := cl ("fin-percentage"), name := cl ("Percentage"),
    category := Category.financial, subcategory := cl ("percentage"),
    pattern := seqRE [RE.wb, plusRE digitC, optRE (seqRE [chrRE '.', plusRE digitC]),
      chrRE '%', RE.wb],
    confidence := 50, placeholderTemplate := cl ("<PERCENTAGE_\x7bn\x7d>"),
    validator := none },
  -- Dates (various formats)
  { id := cl ("pii-date-numeric"), name := cl ("Date (Numeric)"),
    category := Category.pii, subcategory := cl ("date"),
    pattern := seqRE [RE.wb,
      RE.alt
        (seqRE [repRange 1 2 digitC, dashSlashC, repRange 1 2 digitC, dashSlashC,
          repRange 2 4 digitC])
        (seqRE [repN 4 digitC, dashSlashC, repRange 1 2 digitC, dashSlashC,
          repRange 1 2 digitC]),
      RE.wb],
    confidence := 70, placeholderTemplate := cl ("<DATE_\x7bn\x7d>"),
    validator := none },
  { id := cl ("pii-date-text"), name := cl ("Date (Text)"),
    category := Category.pii, subcategory := cl ("date"),
    pattern := seqRE [RE.wb,
      altsRE [seqRE [strCI ("Jan"), optRE (strCI ("uary"))],
        seqRE [strCI ("Feb"), optRE (strCI ("ruary"))],
        seqRE [strCI ("Mar"), optRE (strCI ("ch"))],
        seqRE [strCI ("Apr"), optRE (strCI ("il"))],
        strCI ("May"),
        seqRE [strCI ("Jun"), optRE (chrCI 'e')],
        seqRE [strCI ("Jul"), optRE (chrCI 'y')],
        seqRE [strCI ("Aug"), optRE (strCI ("ust"))],
        seqRE [strCI ("Sep"), optRE (strCI ("tember"))],
        seqRE [strCI ("Oct"), optRE (strCI ("ober"))],
        seqRE [strCI ("Nov"), optRE (strCI ("ember"))],
        seqRE [strCI ("Dec"), optRE (strCI ("ember"))]],
      plusRE (RE.cls (fun c => c = '.' || isSpaceChar c)),
      repRange 1 2 digitC,
      optRE (altsRE [strCI ("st"), strCI ("nd"), strCI ("rd"), strCI ("th")]),
      plusRE (RE.cls (fun c => c = ',' || isSpaceChar c)),
      repN 4 digitC, RE.wb],
    confidence := 75, placeholderTemplate := cl ("<DATE_\x7bn\x7d>"),
    validator := none },
  -- Technical - GitHub Token
  { id := cl ("tech-github-token"), name := cl ("GitHub Token"),
    category := Category.technical, subcategory := cl ("api_key"),
    pattern := seqRE [RE.wb,
      altsRE [strRE ("ghp"), strRE ("gho"), strRE ("ghu"), strRE ("ghs"), strRE ("ghr")],
      chrRE '_', repAtLeast 36 alnumC, RE.wb],
    confidence := 98, placeholderTemplate := cl ("<GITHUB_TOKEN_\x7bn\x7d>"),
    validator := none },
  -- Technical - JWT Token
  { id := cl ("tech-jwt"), name := cl ("JWT Token"),
    category := Category.technical, subcategory := cl ("credentials"),
    pattern := seqRE [RE.wb, strRE ("eyJ"), RE.star wordDashC, chrRE '.',
      strRE ("eyJ"), RE.star wordDashC, chrRE '.', plusRE wordDashC, RE.wb],
    confidence := 95, placeholderTemplate := cl ("<JWT_TOKEN_\x7bn\x7d>"),
    validator := none },
  -- Technical - Slack Token
  { id := cl ("tech-slack-token"), name := cl ("Slack Token"),
    category := Category.technical, subcategory := cl ("api_key"),
    pattern := seqRE [RE.wb, strRE ("xox"),
      RE.cls (fun c => c = 'p' || c = 'b' || c = 'a' || c = 'r'),
      chrRE '-', repAtLeast 10 digitC, chrRE '-', repAtLeast 10 digitC,
      chrRE '-', repAtLeast 24 alnumC, RE.wb],
    confidence := 98, placeholderTemplate := cl ("<SLACK_TOKEN_\x7bn\x7d>"),
    validator := none },
  -- Technical - Google API Key
  { id := cl ("tech-google-api"), name := cl ("Google API Key"),
    category := Category.technical, subcategory := cl ("api_key"),
    pattern := seqRE [RE.wb, strRE ("AIza"), repN 35 wordDashC, RE.wb],
    confidence := 95, placeholderTemplate := cl ("<GOOGLE_API_KEY_\x7bn\x7d>"),
    validator := none },
  -- Technical - AWS Secret Key
  { id := cl ("tech-aws-secret"), name := cl ("AWS Secret Key"),
    category := Category.technical, subcategory := cl ("api_key"),
    pattern := seqRE [RE.wb,
      repN 40 (RE.cls (fun c => isAlpha c || c.isDigit || c = '/' || c = '+' || c = '=')),
      RE.wb],
    confidence := 60, placeholderTemplate := cl ("<AWS_SECRET_\x7bn\x7d>"),
    validator := none },
  -- PII - Street Address
  { id := cl ("pii-address"), name := cl ("Street Address"),
    category := Category.pii, subcategory := cl ("address"),
    pattern := seqRE [RE.wb, repRange 1 5 digitC, plusRE spaceC,
      repRange 1 30 (RE.cls (fun c => isWordChar c || isSpaceChar c)),
      altsRE [strCI ("street"), strCI ("st"), strCI ("avenue"), strCI ("ave"),
        strCI ("road"), strCI ("rd"), strCI ("highway"), strCI ("hwy"),
        strCI ("square"), strCI ("sq"), strCI ("trail"), strCI ("trl"),
        strCI ("drive"), strCI ("dr"), strCI ("court"), strCI ("ct"),
        strCI ("parkway"), strCI ("pkwy"), strCI ("circle"), strCI ("cir"),
        strCI ("boulevard"), strCI ("blvd")],
      RE.wb],
    confidence := 75, placeholderTemplate := cl ("<ADDRESS_\x7bn\x7d>"),
    validator := none },
  -- PII - US ZIP Code
  { id := cl ("pii-zip-us"), name := cl ("US ZIP Code"),
    category := Category.pii, subcategory := cl ("address"),
    pattern := seqRE [RE.wb, repN 5 digitC, optRE (seqRE [chrRE '-', repN 4 digitC]), RE.wb],
    confidence := 60, placeholderTemplate := cl ("<ZIP_CODE_\x7bn\x7d>"),
    validator := none },
  -- PII - Driver License
  { id := cl ("pii-driver-license"), name := cl ("Driver License"),
    category := Category.pii, subcategory := cl ("license"),
    pattern := seqRE [RE.wb,
      RE.alt (strCI ("DL"))
        (seqRE [strCI ("driver"), optRE (chrRE '\''), optRE (chrCI 's'),
          RE.star spaceC, strCI ("license")]),
      RE.star (RE.cls (fun c => c = '#' || c = ':' || isSpaceChar c)),
      repRange 6 15 (RE.cls (fun c => isAlpha c || c.isDigit)), RE.wb],
    confidence := 80, placeholderTemplate := cl ("<DRIVER_LICENSE_\x7bn\x7d>"),
    validator := none },
  -- Technical - Database Connection String
  { id := cl ("tech-db-connection"), name := cl ("Database Connection String"),
    category := Category.technical, subcategory := cl ("credentials"),
    pattern := seqRE [
      altsRE [strCI ("mongodb"), strCI ("mysql"), strCI ("postgresql"),
        strCI ("postgres"), strCI ("redis"), strCI ("mssql")],
      strRE ("://"),
      plusRE (RE.cls (fun c => !isSpaceChar c && c ≠ '"' && c ≠ '\''))],
    confidence := 95, placeholderTemplate := cl ("<DB_CONNECTION_\x7bn\x7d>"),
    validator := none },
  -- Technical - Stripe Key
  { id := cl ("tech-stripe-key"), name := cl ("Stripe API Key"),
    category := Category.technical, subcategory := cl ("api_key"),
    pattern := seqRE [RE.wb, RE.alt (strRE ("sk")) (strRE ("pk")), chrRE '_',
      RE.alt (strRE ("test")) (strRE ("live")), chrRE '_',
      repAtLeast 24 alnumC, RE.wb],
    confidence := 98, placeholderTemplate := cl ("<STRIPE_KEY_\x7bn\x7d>"),
    validator := none },
  -- PII - MAC Address
  { id := cl ("tech-mac-address"), name := cl ("MAC Address"),
    category := Category.technical, subcategory := cl ("device_id"),
    pattern := seqRE [RE.wb,
      repN 5 (seqRE [repN 2 hexC, RE.cls (fun c => c = ':' || c = '-')]),
      repN 2 hexC, RE.wb],
    confidence := 90, placeholderTemplate := cl ("<MAC_ADDRESS_\x7bn\x7d>"),
    validator := none },
  -- PII - UUID
  { id := cl ("tech-uuid"), name := cl ("UUID"),
    category := Category.technical, subcategory := cl ("identifier"),
    pattern := seqRE [RE.wb, repN 8 hexC, chrRE '-', repN 4 hexC, chrRE '-',
      repN 4 hexC, chrRE '-', repN 4 hexC, chrRE '-', repN 12 hexC, RE.wb],
    confidence := 85, placeholderTemplate := cl ("<UUID_\x7bn\x7d>"),
    validator := none }
]

/-! ### Placeholder allocator (detector.ts lines 418-441)

The module-level `entityCounters : Map<string, Map<string, number>>` is
modelled as an insertion-ordered association list (JS `Map` iteration and
`size` follow insertion order, and `size` is all the source reads). -/

abbrev FamilyMap := List (List Char × Nat)

abbrev Counters := List (List Char × FamilyMap)

/-- Association-list lookup (JS `Map.get`). -/
def lookupA {β : Type} : List (List Char × β) → List Char → Option β
  | [], _ => none
  | (k, v) :: rest, k' => if k = k' then some v else lookupA rest k'

/-- Association-list update (JS `Map.set`): overwrite in place when the key
exists, append otherwise. -/
def setA {β : Type} : List (List Char × β) → List Char → β → List (List Char × β)
  | [], k, v => [(k, v)]
  | (k0, v0) :: rest, k, v =>
      if k0 = k then (k0, v) :: rest else (k0, v0) :: setA rest k v

/-- `getPlaceholder` (detector.ts lines 421-437): family key is the template
with `_{n}` removed; values are keyed by the lower-cased, trimmed matched
text; a fresh value receives `templateMap.size + 1`. -/
def getPlaceholder (counters : Counters) (template text : List Char) :
    List Char × Counters :=
  let baseTemplate := replaceFirst (cl ("_\x7bn\x7d")) [] template
  let templateMap := (lookupA counters baseTemplate).getD []
  let normalizedText := trimJS (lowerJS text)
  let templateMap :=
    if (lookupA templateMap normalizedText).isNone then
      templateMap ++ [(normalizedText, templateMap.length + 1)]
    else templateMap
  let num := (lookupA templateMap normalizedText).getD 0
  (replaceFirst (cl ("\x7bn\x7d")) (Nat.repr num).data template,
    setA counters baseTemplate templateMap)

/-- `resetEntityCounters` (detector.ts lines 439-441): the allocator state
after clearing. -/
def resetEntityCounters : Counters := []

/-- `getContextSnippet` (detector.ts lines 443-453) with the default
`contextLength = 50`; `Math.max(0, start - 50)` is truncated subtraction. -/
def getContextSnippet (content : List Char) (start stop : Nat) : List Char :=
  let contextStart := start - 50
  let contextEnd := min content.length (stop + 50)
  let context := subSlice content contextStart contextEnd
  let context := if 0 < contextStart then cl ("...") ++ context else context
  if contextEnd < content.length then context ++ cl ("...") else context

/-! ### Scan engine (detector.ts lines 455-712)

`seenPositions : Set<string>` holds keys of the form
`` `${start}-${end}` ``; since a decimal numeral contains no `-`, that
string is in bijection with the pair `(start, end)`, which is what we
store.  Detections are accumulated by `push`, i.e. appended. -/

structure ScanState where
  counters : Counters
  seen : List (Nat × Nat)
  detections : List Detection

/-- The `seenPositions` key of a detection. -/
def keyOf (d : Detection) : Nat × Nat := (d.position.start, d.position.stop)

/-- Common shape of every detection-emitting site: skip when the exact
`[start, end)` key is already claimed, otherwise (when the validator, if
any, passed) claim the key and append the constructed detection.  `mk`
builds the detection from the current allocator state and returns the
updated allocator state. -/
def pushDetection (st : ScanState) (s e : Nat) (ok : Bool)
    (mk : Counters → Detection × Counters) : ScanState :=
  if (s, e) ∈ st.seen then st
  else if ok then
    { counters := (mk st.counters).2, seen := st.seen ++ [(s, e)],
      detections := st.detections ++ [(mk st.counters).1] }
  else st

/-- Body of the built-in match loop (detector.ts lines 481-507). -/
def ruleStep (content : List Char) (autoMask : Bool) (rule : DetectionRule)
    (st : ScanState) (m : Nat × Nat) : ScanState :=
  let matchText := subSlice content m.1 m.2
  let ok := match rule.validator with
    | some v => v matchText
    | none => true
  pushDetection st m.1 m.2 ok (fun c =>
    let pc := getPlaceholder c rule.placeholderTemplate matchText
    ({ id := rule.id ++ '-' :: (Nat.repr m.1).data,
       text := matchText,
       category := rule.category,
       subcategory := rule.subcategory,
       confidence := rule.confidence,
       position := { start := m.1, stop := m.2 },
       suggestedPlaceholder := pc.1,
       context := getContextSnippet content m.1 m.2,
       approved := autoMask && decide (rule.confidence ≥ 90) }, pc.2))

/-- Built-in rule phase (detector.ts lines 465-508): filter the registry
once by enabled category and minimum confidence, then run every match of
every applicable rule. -/
def runRules (content : List Char) (config : Config) (st : ScanState) : ScanState :=
  let enabledCategories := config.detectionSettings.categoriesEnabled
  let minConfidence := config.detectionSettings.minConfidence
  let applicableRules := builtInRules.filter (fun rule =>
    decide (rule.category ∈ enabledCategories) &&
      decide (rule.confidence ≥ minConfidence))
  applicableRules.foldl (fun st rule =>
    (findMatches rule.pattern content).foldl
      (ruleStep content config.detectionSettings.autoMaskHighConfidence rule) st) st

/-- One NER person span (detector.ts lines 520-536). -/
def personStep (content : List Char) (st : ScanState) (person : NerSpan) : ScanState :=
  pushDetection st person.start person.stop true (fun c =>
    let pc := getPlaceholder c (cl ("<PERSON_\x7bn\x7d>")) person.text
    ({ id := cl ("ner-person-") ++ (Nat.repr person.start).data,
       text := person.text,
       category := Category.pii,
       subcategory := cl ("person_name"),
       confidence := 75,
       position := { start := person.start, stop := person.stop },
       suggestedPlaceholder := pc.1,
       context := getContextSnippet content person.start person.stop,
       approved := false }, pc.2))

/-- One NER organization span (detector.ts lines 540-558). -/
def orgStep (content : List Char) (st : ScanState) (org : NerSpan) : ScanState :=
  pushDetection st org.start org.stop true (fun c =>
    let pc := getPlaceholder c (cl ("<ORGANIZATION_\x7bn\x7d>")) org.text
    ({ id := cl ("ner-org-") ++ (Nat.repr org.start).data,
       text := org.text,
       category := Category.company,
       subcategory := cl ("organization"),
       confidence := 70,
       position := { start := org.start, stop := org.stop },
       suggestedPlaceholder := pc.1,
       context := getContextSnippet content org.start org.stop,
       approved := false }, pc.2))

/-- NER fusion phase (detector.ts lines 510-563): gated on the `pii`
category and the availability of `window.api.extractEntities`; a thrown /
rejected call (`Except.error`) is caught and ignored, and a response with
`success = false` contributes nothing. -/
def nerPhase (content : List Char) (config : Config) (api : Option NerApi)
    (st : ScanState) : ScanState :=
  if Category.pii ∈ config.detectionSettings.categoriesEnabled then
    match api with
    | none => st
    | some extractEntities =>
        match extractEntities content config.customEntities.names with
        | Except.error _ => st
        | Except.ok nerResult =>
            if nerResult.success then
              let st1 := nerResult.persons.foldl (personStep content) st
              nerResult.organizations.foldl (orgStep content) st1
            else st
  else st

/-- `new RegExp('\\b' + escapedName + '\\b', 'gi')`: the source escapes
every regex metacharacter in the user-supplied literal, so the compiled
pattern matches the literal itself, case-insensitively, between word
boundaries. -/
def wholeWordCI (name : List Char) : RE := seqRE [RE.wb, litCI name, RE.wb]

/-- One company-name match (detector.ts lines 574-590); note: fixed
placeholder, no allocator interaction. -/
def companyStep (content : List Char) (autoMask : Bool) (st : ScanState)
    (m : Nat × Nat) : ScanState :=
  pushDetection st m.1 m.2 true (fun c =>
    ({ id := cl ("company-name-") ++ (Nat.repr m.1).data,
       text := subSlice content m.1 m.2,
       category := Category.company,
       subcategory := cl ("company_name"),
       confidence := 100,
       position := { start := m.1, stop := m.2 },
       suggestedPlaceholder := cl ("<COMPANY_NAME>"),
       context := getContextSnippet content m.1 m.2,
       approved := autoMask }, c))

/-- Company-name phase (detector.ts lines 565-592). -/
def companyPhase (content : List Char) (config : Config) (st : ScanState) : ScanState :=
  if config.companyInfo.primaryName ≠ [] ∧
      Category.company ∈ config.detectionSettings.categoriesEnabled then
    let companyNames := (config.companyInfo.primaryName :: config.companyInfo.aliases).filter
      (fun n => n ≠ [])
    companyNames.foldl (fun st name =>
      (findMatches (wholeWordCI name) content).foldl
        (companyStep content config.detectionSettings.autoMaskHighConfidence) st) st
  else st

/-- `` `https?://[^\s]*${escapedDomain}[^\s]*|\b[a-zA-Z0-9.-]*\.${escapedDomain}\b` ``
with the `gi` flags (detector.ts line 600). -/
def internalDomainRE (domain : List Char) : RE :=
  RE.alt
    (seqRE [strCI ("http"), optRE (chrCI 's'), strRE ("://"),
      RE.star nonSpaceC, litCI domain, RE.star nonSpaceC])
    (seqRE [RE.wb,
      RE.star (RE.cls (fun c => isAlpha c || c.isDigit || c = '.' || c = '-')),
      chrRE '.', litCI domain, RE.wb])

/-- One internal-domain match (detector.ts lines 603-619). -/
def domainStep (content : List Char) (autoMask : Bool) (st : ScanState)
    (m : Nat × Nat) : ScanState :=
  let matchText := subSlice content m.1 m.2
  pushDetection st m.1 m.2 true (fun c =>
    let pc := getPlaceholder c (cl ("<INTERNAL_URL_\x7bn\x7d>")) matchText
    ({ id := cl ("internal-url-") ++ (Nat.repr m.1).data,
       text := matchText,
       category := Category.technical,
       subcategory := cl ("internal_url"),
       confidence := 95,
       position := { start := m.1, stop := m.2 },
       suggestedPlaceholder := pc.1,
       context := getContextSnippet content m.1 m.2,
       approved := autoMask }, pc.2))

/-- Internal-domain phase (detector.ts lines 594-621).  The source guard
`config.companyInfo.internalDomains && ...` only protects against an
`undefined` field: an array is always truthy, so the category test is the
live condition. -/
def domainPhase (content : List Char) (config : Config) (st : ScanState) : ScanState :=
  if Category.technical ∈ config.detectionSettings.categoriesEnabled then
    config.companyInfo.internalDomains.foldl (fun st domain =>
      if domain = [] then st
      else (findMatches (internalDomainRE domain) content).foldl
        (domainStep content config.detectionSettings.autoMaskHighConfidence) st) st
  else st

/-- One custom-keyword match (detector.ts lines 632-647). -/
def keywordStep (content : List Char) (autoMask : Bool) (st : ScanState)
    (m : Nat × Nat) : ScanState :=
  let matchText := subSlice content m.1 m.2
  pushDetection st m.1 m.2 true (fun c =>
    let pc := getPlaceholder c (cl ("<KEYWORD_\x7bn\x7d>")) matchText
    ({ id := cl ("custom-keyword-") ++ (Nat.repr m.1).data,
       text := matchText,
       category := Category.custom,
       subcategory := cl ("keyword"),
       confidence := 100,
       position := { start := m.1, stop := m.2 },
       suggestedPlaceholder := pc.1,
       context := getContextSnippet content m.1 m.2,
       approved := autoMask }, pc.2))

/-- One custom-client match (detector.ts lines 658-675); the placeholder is
keyed by `client.name`, not the matched alias text. -/
def clientStep (content : List Char) (autoMask : Bool) (clientName : List Char)
    (st : ScanState) (m : Nat × Nat) : ScanState :=
  pushDetection st m.1 m.2 true (fun c =>
    let pc := getPlaceholder c (cl ("<CLIENT_\x7bn\x7d>")) clientName
    ({ id := cl ("custom-client-") ++ (Nat.repr m.1).data,
       text := subSlice content m.1 m.2,
       category := Category.custom,
       subcategory := cl ("client"),
       confidence := 100,
       position := { start := m.1, stop := m.2 },
       suggestedPlaceholder := pc.1,
       context := getContextSnippet content m.1 m.2,
       approved := autoMask }, pc.2))

/-- One custom-project match (detector.ts lines 686-703); placeholder keyed
by `project.name`. -/
def projectStep (content : List Char) (autoMask : Bool) (projectName : List Char)
    (st : ScanState) (m : Nat × Nat) : ScanState :=
  pushDetection st m.1 m.2 true (fun c =>
    let pc := getPlaceholder c (cl ("<PROJECT_\x7bn\x7d>")) projectName
    ({ id := cl ("custom-project-") ++ (Nat.repr m.1).data,
       text := subSlice content m.1 m.2,
       category := Category.custom,
       subcategory := cl ("project"),
       confidence := 100,
       position := { start := m.1, stop := m.2 },
       suggestedPlaceholder := pc.1,
       context := getContextSnippet content m.1 m.2,
       approved := autoMask }, pc.2))

/-- Custom keyword / client / project phase (detector.ts lines 623-706). -/
def customPhase (content : List Char) (config : Config) (st : ScanState) : ScanState :=
  if Category.custom ∈ config.detectionSettings.categoriesEnabled then
    let autoMask := config.detectionSettings.autoMaskHighConfidence
    let st1 := config.customEntities.keywords.foldl (fun st keyword =>
      if keyword = [] then st
      else (findMatches (wholeWordCI keyword) content).foldl
        (keywordStep content autoMask) st) st
    let st2 := config.customEntities.clients.foldl (fun st client =>
      ((client.name :: client.aliases).filter (fun n => n ≠ [])).foldl (fun st name =>
        (findMatches (wholeWordCI name) content).foldl
          (clientStep content autoMask client.name) st) st) st1
    config.customEntities.projects.foldl (fun st project =>
      ((project.name :: project.aliases).filter (fun n => n ≠ [])).foldl (fun st name =>
        (findMatches (wholeWordCI name) content).foldl
          (projectStep content autoMask project.name) st) st) st2
  else st

/-! ### Sorting

`Array.prototype.sort` with a numeric comparator is a stable comparison
sort (ES2019); a stable insertion sort realizes exactly that contract. -/

def insertLe {α : Type} (le : α → α → Bool) (a : α) : List α → List α
  | [] => [a]
  | b :: rest => if le a b then a :: b :: rest else b :: insertLe le a rest

def isortBy {α : Type} (le : α → α → Bool) : List α → List α
  | [] => []
  | a :: rest => insertLe le a (isortBy le rest)

/-- Comparator `(a, b) => a.position.start - b.position.start` (ascending). -/
def detAscLe (a b : Detection) : Bool := decide (a.position.start ≤ b.position.start)

/-- Comparator `(a, b) => b.position.start - a.position.start` (descending). -/
def detDescLe (a b : Detection) : Bool := decide (b.position.start ≤ a.position.start)

/-- The scan state right after `resetEntityCounters()` (line 461) and the
initialization of `detections` / `seenPositions` (lines 462-463). -/
def initialScanState : ScanState :=
  { counters := resetEntityCounters, seen := [], detections := [] }

/-- The five detection-emitting phases of `detectSensitiveInfo` in source
order: built-in rules, NER fusion, company names, internal domains, custom
entities. -/
def scanPipeline (content : List Char) (config : Config) (api : Option NerApi) :
    ScanState :=
  customPhase content config
    (domainPhase content config
      (companyPhase content config
        (nerPhase content config api
          (runRules content config initialScanState))))

/-- `detectSensitiveInfo` (detector.ts lines 455-712).  The first explicit
argument models the module-level `entityCounters` state as it stands when
the scan begins; the scan clears it first (`resetEntityCounters()`,
line 461), which is why the result cannot depend on it.  `api` models
`window.api?.extractEntities`. -/
def detectSensitiveInfo (_entityCounters : Counters) (content : List Char)
    (config : Config) (api : Option NerApi) : List Detection :=
  -- Early exit for empty or very short content (lines 457-459)
  if content.length < 3 then []
  else
    -- Sort by position (lines 708-711)
    isortBy detAscLe (scanPipeline content config api).detections

/-! ### Masking engine (detector.ts lines 741-764) -/

abbrev Mappings := List (List Char × List (List Char))

/-- Body of the replacement loop (detector.ts lines 750-761). -/
def maskStep (acc : List Char × Mappings) (detection : Detection) :
    List Char × Mappings :=
  let before := acc.1.take detection.position.start
  let after := acc.1.drop detection.position.stop
  let maskedContent := before ++ detection.suggestedPlaceholder ++ after
  let existing := (lookupA acc.2 detection.suggestedPlaceholder).getD []
  let existing :=
    if detection.text ∈ existing then existing else existing ++ [detection.text]
  (maskedContent, setA acc.2 detection.suggestedPlaceholder existing)

/-- `applyMasking` (detector.ts lines 741-764): keep only approved
detections, sort them by `position.start` descending, splice placeholders
in from the end toward the start, recording placeholder → original-text
associations (deduplicated per placeholder). -/
def applyMasking (content : List Char) (detections : List Detection) :
    List Char × Mappings :=
  let approvedDetections := detections.filter (fun d => d.approved)
  let sortedDetections := isortBy detDescLe approvedDetections
  sortedDetections.foldl maskStep (content, [])

/-! ## Specification-side predicates and concrete scenario inputs -/

/-- The running invariant of a scan: every emitted detection's position key
has been claimed in `seenPositions`, and no two emitted detections carry
the same key. -/
def ScanInv (st : ScanState) : Prop :=
  (∀ d ∈ st.detections, keyOf d ∈ st.seen) ∧
    st.detections.Pairwise (fun a b => keyOf a ≠ keyOf b)

/-- The recognizer call failed: it threw / rejected, or resolved with
`success = false`. -/
def nerFailed : Except (List Char) NerResult → Prop
  | Except.error _ => True
  | Except.ok r => r.success = false

/-! ## Concrete scenario inputs used by counterexamples and witnesses -/

def noCompany : CompanyInfo :=
  { primaryName := [], aliases := [], domain := [], internalDomains := [] }

def noCustom : CustomEntities :=
  { clients := [], projects := [], products := [], keywords := [], names := [] }

/-- Only `pii` enabled, minimum confidence 85, no auto-approval. -/
def cfgPii85 : Config where
  companyInfo := noCompany
  customEntities := noCustom
  detectionSettings :=
    { minConfidence := 85
      autoMaskHighConfidence := false
      categoriesEnabled := [Category.pii] }

/-- The Saudi-national-id detection of the `"1512345678"` scenario. -/
def saudiIdDet : Detection :=
  { id := cl ("pii-saudi-id-0"), text := cl ("1512345678"),
    category := Category.pii, subcategory := cl ("national_id"),
    confidence := 85, position := { start := 0, stop := 10 },
    suggestedPlaceholder := cl ("<NATIONAL_ID_1>"), context := cl ("1512345678"),
    approved := false }

/-- `pii` and `company` enabled, `minConfidence = 101` (no built-in rule
can pass), company primary name `"Acme"`. -/
def cfgCompanyNer : Config where
  companyInfo :=
    { primaryName := cl ("Acme"), aliases := [], domain := [], internalDomains := [] }
  customEntities := noCustom
  detectionSettings :=
    { minConfidence := 101
      autoMaskHighConfidence := false
      categoriesEnabled := [Category.pii, Category.company] }

/-- A recognizer that reports `"Acme"` at `[0, 4)` as an organization. -/
def apiAcmeOrg : NerApi := fun _ _ =>
  Except.ok
    { success := true, persons := [],
      organizations := [{ text := cl ("Acme"), start := 0, stop := 4 }] }

/-- A recognizer that always rejects. -/
def failApi : NerApi := fun _ _ => Except.error (cl ("boom"))

/-- Specification-side Luhn sum: digits supplied rightmost first; every
second digit (the 0-based odd positions) is doubled, subtracting 9 when the
doubled value exceeds 9. -/
def luhnSpecSum : List Nat → Nat
  | [] => 0
  | [d] => d
  | d :: e :: rest =>
      d + (if e * 2 > 9 then e * 2 - 9 else e * 2) + luhnSpecSum rest

/-- Every per-placeholder value list of an export mapping is
duplicate-free. -/
def MappingsNodup (mp : Mappings) : Prop :=
  ∀ p l, lookupA mp p = some l → l.Nodup

/-- Internal domain `corp.local` configured, only `technical` enabled,
`minConfidence = 101` so no built-in rule interferes. -/
def cfgInternalDomain : Config where
  companyInfo :=
    { primaryName := [], aliases := [], domain := [],
      internalDomains := [cl ("corp.local")] }
  customEntities := noCustom
  detectionSettings :=
    { minConfidence := 101
      autoMaskHighConfidence := false
      categoriesEnabled := [Category.technical] }

/-- Only `pii` enabled with `minConfidence = 90`. -/
def cfgPii90 : Config where
  companyInfo := noCompany
  customEntities := noCustom
  detectionSettings :=
    { minConfidence := 90
      autoMaskHighConfidence := false
      categoriesEnabled := [Category.pii] }

/-- A recognizer that reports the person `"bob"` at `[3, 6)`. -/
def apiBobPerson : NerApi := fun _ _ =>
  Except.ok
    { success := true,
      persons := [{ text := cl ("bob"), start := 3, stop := 6 }],
      organizations := [] }

/-- `config` with only `detectionSettings.minConfidence` replaced. -/
def setMinConfidence (config : Config) (m : Nat) : Config :=
  { config with
    detectionSettings := { config.detectionSettings with minConfidence := m } }

/-- The approved email detection of the masking round-trip scenario. -/
def emailDet : Detection :=
  { id := cl ("pii-email-12"), text := cl ("a@b.com"), category := Category.pii,
    subcategory := cl ("email"), confidence := 95,
    position := { start := 12, stop := 19 },
    suggestedPlaceholder := cl ("<EMAIL_1>"),
    context := cl ("Email me at a@b.com"), approved := true }

/-- The ordinal an allocator state currently binds to the normalized
`text` within the family of `template` (the template with `_{n}` removed),
if any. -/
def ordinalOf (c : Counters) (template text : List Char) : Option Nat :=
  lookupA ((lookupA c (replaceFirst (cl ("_\x7bn\x7d")) [] template)).getD [])
    (trimJS (lowerJS text))

/-- The allocator state after a further sequence of allocations, given as
(template, text) pairs — used to express reuse across arbitrary
intervening allocations. -/
def allocMany (c : Counters) : List (List Char × List Char) → Counters
  | [] => c
  | (t, x) :: rest => allocMany (getPlaceholder c t x).2 rest

/-! ## Generic lemmas about the pipeline building blocks -/

/-- A predicate preserved by every fold step is preserved by the fold. -/
theorem foldl_pres {α σ : Type} (P : σ → Prop) {step : σ → α → σ}
    (h : ∀ st x, P st → P (step st x)) :
    ∀ (l : List α) (st : σ), P st → P (l.foldl step st)
  | [], _, hst => hst
  | x :: rest, st, hst => foldl_pres P h rest (step st x) (h st x hst)

/-- `pushDetection` only appends: membership in `detections` is stable. -/
theorem pushDetection_mem {st : ScanState} {s e : Nat} {ok : Bool}
    {mk : Counters → Detection × Counters} {d : Detection}
    (h : d ∈ st.detections) : d ∈ (pushDetection st s e ok mk).detections := by
  unfold pushDetection
  split
  · exact h
  · split
    · exact List.mem_append_left _ h
    · exact h

theorem pushDetection_inv {st : ScanState} {s e : Nat} {ok : Bool}
    {mk : Counters → Detection × Counters}
    (hmk : ((mk st.counters).1).position = { start := s, stop := e })
    (h : ScanInv st) : ScanInv (pushDetection st s e ok mk) := by
  obtain ⟨hclaim, hpair⟩ := h
  unfold pushDetection
  split
  · exact ⟨hclaim, hpair⟩
  · rename_i hnot
    split
    · constructor
      · intro d hd
        rcases List.mem_append.mp hd with h1 | h2
        · exact List.mem_append_left _ (hclaim d h1)
        · have hde : d = (mk st.counters).1 := by simpa using h2
          subst hde
          apply List.mem_append_right
          simp [keyOf, hmk]
      · rw [List.pairwise_append]
        refine ⟨hpair, List.pairwise_singleton _ _, ?_⟩
        intro a ha b hb
        have hb' : b = (mk st.counters).1 := by simpa using hb
        subst hb'
        have hka : keyOf a ∈ st.seen := hclaim a ha
        have hkb : keyOf (mk st.counters).1 = (s, e) := by simp [keyOf, hmk]
        rw [hkb]
        intro hEq
        exact hnot (hEq ▸ hka)
    · exact ⟨hclaim, hpair⟩

theorem ruleStep_inv {content : List Char} {autoMask : Bool} {rule : DetectionRule}
    {st : ScanState} {m : Nat × Nat} (h : ScanInv st) :
    ScanInv (ruleStep content autoMask rule st m) :=
  pushDetection_inv rfl h

theorem personStep_inv {content : List Char} {st : ScanState} {p : NerSpan}
    (h : ScanInv st) : ScanInv (personStep content st p) :=
  pushDetection_inv rfl h

theorem orgStep_inv {content : List Char} {st : ScanState} {o : NerSpan}
    (h : ScanInv st) : ScanInv (orgStep content st o) :=
  pushDetection_inv rfl h

theorem companyStep_inv {content : List Char} {autoMask : Bool} {st : ScanState}
    {m : Nat × Nat} (h : ScanInv st) : ScanInv (companyStep content autoMask st m) :=
  pushDetection_inv rfl h

theorem domainStep_inv {content : List Char} {autoMask : Bool} {st : ScanState}
    {m : Nat × Nat} (h : ScanInv st) : ScanInv (domainStep content autoMask st m) :=
  pushDetection_inv rfl h

theorem keywordStep_inv {content : List Char} {autoMask : Bool} {st : ScanState}
    {m : Nat × Nat} (h : ScanInv st) : ScanInv (keywordStep content autoMask st m) :=
  pushDetection_inv rfl h

theorem clientStep_inv {content : List Char} {autoMask : Bool} {n : List Char}
    {st : ScanState} {m : Nat × Nat} (h : ScanInv st) :
    ScanInv (clientStep content autoMask n st m) :=
  pushDetection_inv rfl h

theorem projectStep_inv {content : List Char} {autoMask : Bool} {n : List Char}
    {st : ScanState} {m : Nat × Nat} (h : ScanInv st) :
    ScanInv (projectStep content autoMask n st m) :=
  pushDetection_inv rfl h

theorem runRules_inv {content : List Char} {config : Config} {st : ScanState}
    (h : ScanInv st) : ScanInv (runRules content config st) := by
  unfold runRules
  exact foldl_pres ScanInv (fun st rule hst =>
    foldl_pres ScanInv (fun st m hst => ruleStep_inv hst) _ _ hst) _ _ h

theorem nerPhase_inv {content : List Char} {config : Config} {api : Option NerApi}
    {st : ScanState} (h : ScanInv st) : ScanInv (nerPhase content config api st) := by
  unfold nerPhase
  split
  · split
    · exact h
    · split
      · exact h
      · split
        · exact foldl_pres ScanInv (fun st o hst => orgStep_inv hst) _ _
            (foldl_pres ScanInv (fun st p hst => personStep_inv hst) _ _ h)
        · exact h
  · exact h

theorem companyPhase_inv {content : List Char} {config : Config} {st : ScanState}
    (h : ScanInv st) : ScanInv (companyPhase content config st) := by
  unfold companyPhase
  split
  · exact foldl_pres ScanInv (fun st name hst =>
      foldl_pres ScanInv (fun st m hst => companyStep_inv hst) _ _ hst) _ _ h
  · exact h

theorem domainPhase_inv {content : List Char} {config : Config} {st : ScanState}
    (h : ScanInv st) : ScanInv (domainPhase content config st) := by
  unfold domainPhase
  split
  · refine foldl_pres ScanInv (fun st domain hst => ?_) _ _ h
    split
    · exact hst
    · exact foldl_pres ScanInv (fun st m hst => domainStep_inv hst) _ _ hst
  · exact h

theorem customPhase_inv {content : List Char} {config : Config} {st : ScanState}
    (h : ScanInv st) : ScanInv (customPhase content config st) := by
  unfold customPhase
  split
  · refine foldl_pres ScanInv (fun st project hst =>
      foldl_pres ScanInv (fun st name hst =>
        foldl_pres ScanInv (fun st m hst => projectStep_inv hst) _ _ hst) _ _ hst) _ _ ?_
    refine foldl_pres ScanInv (fun st client hst =>
      foldl_pres ScanInv (fun st name hst =>
        foldl_pres ScanInv (fun st m hst => clientStep_inv hst) _ _ hst) _ _ hst) _ _ ?_
    refine foldl_pres ScanInv (fun st keyword hst => ?_) _ _ h
    split
    · exact hst
    · exact foldl_pres ScanInv (fun st m hst => keywordStep_inv hst) _ _ hst
  · exact h

theorem scanPipeline_inv (content : List Char) (config : Config)
    (api : Option NerApi) : ScanInv (scanPipeline content config api) :=
  customPhase_inv (domainPhase_inv (companyPhase_inv (nerPhase_inv (runRules_inv
    ⟨fun _ h => absurd h (List.not_mem_nil _), List.Pairwise.nil⟩))))

theorem domainStep_mem {content : List Char} {autoMask : Bool} {st : ScanState}
    {m : Nat × Nat} {d : Detection} (h : d ∈ st.detections) :
    d ∈ (domainStep content autoMask st m).detections := by
  unfold domainStep
  exact pushDetection_mem h

theorem keywordStep_mem {content : List Char} {autoMask : Bool} {st : ScanState}
    {m : Nat × Nat} {d : Detection} (h : d ∈ st.detections) :
    d ∈ (keywordStep content autoMask st m).detections := by
  unfold keywordStep
  exact pushDetection_mem h

/-- Later phases never remove an already-emitted detection. -/
theorem nerPhase_mem {content : List Char} {config : Config} {api : Option NerApi}
    {st : ScanState} {d : Detection} (h : d ∈ st.detections) :
    d ∈ (nerPhase content config api st).detections := by
  unfold nerPhase
  split
  · split
    · exact h
    · split
      · exact h
      · split
        · exact foldl_pres (fun st : ScanState => d ∈ st.detections)
            (fun st o hst => pushDetection_mem hst) _ _
            (foldl_pres (fun st : ScanState => d ∈ st.detections)
              (fun st p hst => pushDetection_mem hst) _ _ h)
        · exact h
  · exact h

theorem companyPhase_mem {content : List Char} {config : Config} {st : ScanState}
    {d : Detection} (h : d ∈ st.detections) :
    d ∈ (companyPhase content config st).detections := by
  unfold companyPhase
  split
  · exact foldl_pres (fun st : ScanState => d ∈ st.detections) (fun st name hst =>
      foldl_pres (fun st : ScanState => d ∈ st.detections)
        (fun st m hst => pushDetection_mem hst) _ _ hst) _ _ h
  · exact h

theorem domainPhase_mem {content : List Char} {config : Config} {st : ScanState}
    {d : Detection} (h : d ∈ st.detections) :
    d ∈ (domainPhase content config st).detections := by
  unfold domainPhase
  split
  · refine foldl_pres (fun st : ScanState => d ∈ st.detections) (fun st domain hst => ?_) _ _ h
    split
    · exact hst
    · exact foldl_pres (fun st : ScanState => d ∈ st.detections)
        (fun st m hst => domainStep_mem hst) _ _ hst
  · exact h

theorem customPhase_mem {content : List Char} {config : Config} {st : ScanState}
    {d : Detection} (h : d ∈ st.detections) :
    d ∈ (customPhase content config st).detections := by
  unfold customPhase
  split
  · refine foldl_pres (fun st : ScanState => d ∈ st.detections) (fun st project hst =>
      foldl_pres (fun st : ScanState => d ∈ st.detections) (fun st name hst =>
        foldl_pres (fun st : ScanState => d ∈ st.detections)
          (fun st m hst => pushDetection_mem hst) _ _ hst) _ _ hst) _ _ ?_
    refine foldl_pres (fun st : ScanState => d ∈ st.detections) (fun st client hst =>
      foldl_pres (fun st : ScanState => d ∈ st.detections) (fun st name hst =>
        foldl_pres (fun st : ScanState => d ∈ st.detections)
          (fun st m hst => pushDetection_mem hst) _ _ hst) _ _ hst) _ _ ?_
    refine foldl_pres (fun st : ScanState => d ∈ st.detections) (fun st keyword hst => ?_) _ _ h
    split
    · exact hst
    · exact foldl_pres (fun st : ScanState => d ∈ st.detections)
        (fun st m hst => keywordStep_mem hst) _ _ hst
  · exact h

/-- A detection emitted by the built-in phase survives to the end of the
pipeline. -/
theorem scanPipeline_mem {content : List Char} {config : Config}
    {api : Option NerApi} {d : Detection}
    (h : d ∈ (runRules content config initialScanState).detections) :
    d ∈ (scanPipeline content config api).detections :=
  customPhase_mem (domainPhase_mem (companyPhase_mem (nerPhase_mem h)))

/-! ### Stable insertion sort lemmas -/

theorem insertLe_perm {α : Type} (le : α → α → Bool) (a : α) :
    ∀ l : List α, (insertLe le a l).Perm (a :: l)
  | [] => List.Perm.refl _
  | b :: rest => by
      unfold insertLe
      split
      · exact List.Perm.refl _
      · exact ((insertLe_perm le a rest).cons b).trans (List.Perm.swap a b rest)

theorem isortBy_perm {α : Type} (le : α → α → Bool) :
    ∀ l : List α, (isortBy le l).Perm l
  | [] => List.Perm.refl _
  | a :: rest =>
      (insertLe_perm le a (isortBy le rest)).trans ((isortBy_perm le rest).cons a)

theorem mem_isortBy {α : Type} {le : α → α → Bool} {a : α} {l : List α} :
    a ∈ isortBy le l ↔ a ∈ l :=
  (isortBy_perm le l).mem_iff

theorem insertLe_pairwise {α : Type} {le : α → α → Bool}
    (htot : ∀ a b, le a b = true ∨ le b a = true)
    (htrans : ∀ a b c, le a b = true → le b c = true → le a c = true) :
    ∀ {l : List α} (a : α), l.Pairwise (fun x y => le x y = true) →
      (insertLe le a l).Pairwise (fun x y => le x y = true) := by
  intro l
  induction l with
  | nil =>
      intro a _
      exact List.pairwise_singleton _ _
  | cons b rest ih =>
      intro a h
      rw [List.pairwise_cons] at h
      obtain ⟨hb, hrest⟩ := h
      unfold insertLe
      split
      · rename_i hab
        rw [List.pairwise_cons]
        refine ⟨?_, List.pairwise_cons.mpr ⟨hb, hrest⟩⟩
        intro x hx
        rcases List.mem_cons.mp hx with hxb | hxr
        · exact hxb ▸ hab
        · exact htrans a b x hab (hb x hxr)
      · rename_i hab
        have hba : le b a = true := by
          rcases htot a b with h1 | h1
          · exact absurd h1 hab
          · exact h1
        rw [List.pairwise_cons]
        refine ⟨?_, ih a hrest⟩
        intro x hx
        rcases List.mem_cons.mp ((insertLe_perm le a rest).mem_iff.mp hx) with hxa | hxr
        · exact hxa ▸ hba
        · exact hb x hxr

theorem isortBy_pairwise {α : Type} {le : α → α → Bool}
    (htot : ∀ a b, le a b = true ∨ le b a = true)
    (htrans : ∀ a b c, le a b = true → le b c = true → le a c = true) :
    ∀ l : List α, (isortBy le l).Pairwise (fun x y => le x y = true)
  | [] => List.Pairwise.nil
  | a :: rest =>
      insertLe_pairwise htot htrans a (isortBy_pairwise htot htrans rest)

/-- Shared helper: every scan output has pairwise-distinct position keys. -/
theorem scan_keys_pairwise (g : Counters) (content : List Char) (config : Config)
    (api : Option NerApi) :
    (detectSensitiveInfo g content config api).Pairwise
      (fun a b => keyOf a ≠ keyOf b) := by
  unfold detectSensitiveInfo
  split
  · exact List.Pairwise.nil
  · have hperm := isortBy_perm detAscLe (scanPipeline content config api).detections
    exact (hperm.pairwise_iff (fun h h' => h h'.symm)).mpr
      (scanPipeline_inv content config api).2

/-! ## C1 — overlap resolution -/

/-- **C1** (amended): within one scan no two detections carry the same
exact `[start, end)` key — the first claimant of a key wins and later
candidates at that exact range are discarded — but detections whose ranges
overlap without being identical can both be returned. -/
theorem scan_no_duplicate_ranges (g : Counters) (content : List Char)
    (config : Config) (api : Option NerApi) :
    (detectSensitiveInfo g content config api).Pairwise
      (fun a b => keyOf a ≠ keyOf b) :=
  scan_keys_pairwise g content config api

/-- **C1** (counterexample): scanning `"1512345678"` with `pii` enabled and
`minConfidence = 85` returns two detections over `[0, 10)` (Saudi national
id) and `[1, 10)` (Saudi phone) — distinct keys, overlapping ranges, so the
claim that no two returned detections overlap is false. -/
theorem scan_overlap_counterexample :
    ((detectSensitiveInfo [] (cl ("1512345678")) cfgPii85 none).map keyOf =
      [(0, 10), (1, 10)]) ∧ max 0 1 < min 10 10 := by
  exact ⟨by decide, by decide⟩

/-! ## C8 — output ordering -/

/-- **C8**: for every input, the scan returns its detection list sorted
ascending by `position.start`. -/
theorem scan_sorted_by_start (g : Counters) (content : List Char)
    (config : Config) (api : Option NerApi) :
    (detectSensitiveInfo g content config api).Pairwise
      (fun a b => a.position.start ≤ b.position.start) := by
  unfold detectSensitiveInfo
  split
  · exact List.Pairwise.nil
  · have htot : ∀ a b : Detection, detAscLe a b = true ∨ detAscLe b a = true := by
      intro a b
      simp only [detAscLe, decide_eq_true_eq]
      exact Nat.le_total _ _
    have htrans : ∀ a b c : Detection,
        detAscLe a b = true → detAscLe b c = true → detAscLe a c = true := by
      intro a b c
      simp only [detAscLe, decide_eq_true_eq]
      exact Nat.le_trans
    refine (isortBy_pairwise htot htrans _).imp ?_
    intro a b h
    simpa [detAscLe, decide_eq_true_eq] using h

/-! ## C6 — category / confidence filtering of built-in rules -/

/-- What `pushDetection` can add: either the state is unchanged or the
detection built from the current counters was appended. -/
theorem pushDetection_out {st : ScanState} {s e : Nat} {ok : Bool}
    {mk : Counters → Detection × Counters} {d : Detection}
    (h : d ∈ (pushDetection st s e ok mk).detections) :
    d ∈ st.detections ∨ d = (mk st.counters).1 := by
  unfold pushDetection at h
  split at h
  · exact Or.inl h
  · split at h
    · rcases List.mem_append.mp h with h1 | h2
      · exact Or.inl h1
      · exact Or.inr (by simpa using h2)
    · exact Or.inl h

/-- A detection added by `ruleStep` copies the rule's category and base
confidence. -/
theorem ruleStep_out {content : List Char} {autoMask : Bool} {rule : DetectionRule}
    {st : ScanState} {m : Nat × Nat} {d : Detection}
    (h : d ∈ (ruleStep content autoMask rule st m).detections) :
    d ∈ st.detections ∨
      (d.category = rule.category ∧ d.confidence = rule.confidence) := by
  unfold ruleStep at h
  rcases pushDetection_out h with h1 | h2
  · exact Or.inl h1
  · subst h2
    exact Or.inr ⟨rfl, rfl⟩

/-- Provenance through a fold: a detection in the result was already there
or was contributed by some list element. -/
theorem foldl_out {α : Type} (Q : α → Detection → Prop) {step : ScanState → α → ScanState}
    (h : ∀ st x d, d ∈ (step st x).detections → d ∈ st.detections ∨ Q x d) :
    ∀ (l : List α) (st : ScanState) (d : Detection),
      d ∈ (l.foldl step st).detections → d ∈ st.detections ∨ ∃ x ∈ l, Q x d
  | [], _, _, hd => Or.inl hd
  | x :: rest, st, d, hd => by
      rcases foldl_out Q h rest (step st x) d hd with h1 | ⟨y, hy, hq⟩
      · rcases h st x d h1 with h2 | h2
        · exact Or.inl h2
        · exact Or.inr ⟨x, List.mem_cons_self x rest, h2⟩
      · exact Or.inr ⟨y, List.mem_cons_of_mem x hy, hq⟩

/-- **C6**: every detection produced by the built-in rule phase comes from a
rule whose category is enabled and whose base confidence is at least the
configured minimum (so, e.g., with `minConfidence = 90` a confidence-85 rule
never produces a detection, and a disabled category produces none). -/
theorem builtin_rules_respect_filter {content : List Char} {config : Config}
    {d : Detection}
    (h : d ∈ (runRules content config initialScanState).detections) :
    d.category ∈ config.detectionSettings.categoriesEnabled ∧
      d.confidence ≥ config.detectionSettings.minConfidence := by
  unfold runRules at h
  have hout := foldl_out
    (fun rule d => d.category = rule.category ∧ d.confidence = rule.confidence)
    (fun st rule d hd => by
      rcases foldl_out
        (fun _ d => d.category = rule.category ∧ d.confidence = rule.confidence)
        (fun st m d hd => ruleStep_out hd) _ _ _ hd with h1 | ⟨m, _, hq⟩
      · exact Or.inl h1
      · exact Or.inr hq)
    _ _ _ h
  rcases hout with h1 | ⟨rule, hrule, hcat, hconf⟩
  · simp [initialScanState] at h1
  · obtain ⟨-, hpred⟩ := List.mem_filter.mp hrule
    rw [Bool.and_eq_true, decide_eq_true_eq, decide_eq_true_eq] at hpred
    exact ⟨hcat ▸ hpred.1, hconf ▸ hpred.2⟩

/-- Witness for C6 at a concrete input. -/
theorem builtin_rules_respect_filter_witness :
    (saudiIdDet ∈ (runRules (cl ("1512345678")) cfgPii85 initialScanState).detections) ∧
      (saudiIdDet.category ∈ cfgPii85.detectionSettings.categoriesEnabled ∧
        saudiIdDet.confidence ≥ cfgPii85.detectionSettings.minConfidence) :=
  ⟨by decide,
    @builtin_rules_respect_filter (cl ("1512345678")) cfgPii85 saudiIdDet (by decide)⟩

/-! ## C4 — phase order: built-in rules, then NER, then custom matchers -/

/-- From pairwise-distinct keys, any two distinct members have distinct
keys. -/
theorem pairwise_ne_keys {l : List Detection}
    (hp : l.Pairwise (fun a b => keyOf a ≠ keyOf b))
    {a b : Detection} (ha : a ∈ l) (hb : b ∈ l) (hab : a ≠ b) :
    keyOf a ≠ keyOf b := by
  induction l with
  | nil => cases ha
  | cons x xs ih =>
      rw [List.pairwise_cons] at hp
      obtain ⟨hx, hxs⟩ := hp
      rcases List.mem_cons.mp ha with rfl | ha'
      · rcases List.mem_cons.mp hb with rfl | hb'
        · exact absurd rfl hab
        · exact hx b hb'
      · rcases List.mem_cons.mp hb with rfl | hb'
        · exact fun h => (hx a ha') h.symm
        · exact ih hxs ha' hb'

/-- **C4** (amended): NER spans are fused *after* the built-in pattern
rules, so every built-in detection survives to the scan output and nothing
else in the output (NER spans included) occupies its exact position key.
(The original claim fails for the custom-entity matchers, which run *after*
NER — see the counterexample.) -/
theorem builtin_priority_over_ner (g : Counters) (content : List Char)
    (config : Config) (api : Option NerApi) (d : Detection)
    (hlen : 3 ≤ content.length)
    (hd : d ∈ (runRules content config initialScanState).detections) :
    d ∈ detectSensitiveInfo g content config api ∧
      ∀ d' ∈ detectSensitiveInfo g content config api,
        d' ≠ d → keyOf d' ≠ keyOf d := by
  have hout : d ∈ detectSensitiveInfo g content config api := by
    unfold detectSensitiveInfo
    split
    · rename_i hlt
      omega
    · exact mem_isortBy.mpr (scanPipeline_mem hd)
  refine ⟨hout, ?_⟩
  intro d' hd' hne
  exact pairwise_ne_keys (scan_keys_pairwise g content config api) hd' hout hne

/-- Witness for C4's amended statement. -/
theorem builtin_priority_over_ner_witness :
    (3 ≤ (cl ("1512345678")).length ∧
      saudiIdDet ∈ (runRules (cl ("1512345678")) cfgPii85 initialScanState).detections) ∧
      saudiIdDet ∈ detectSensitiveInfo [] (cl ("1512345678")) cfgPii85 none :=
  ⟨⟨by decide, by decide⟩,
    (builtin_priority_over_ner [] (cl ("1512345678")) cfgPii85 none saudiIdDet
      (by decide) (by decide)).1⟩

/-- **C4** (counterexample): scanning `"Acme rocks"` with the company name
`"Acme"` configured and an NER organization span at the same `[0, 4)` range
returns the NER detection (subcategory `organization`, confidence 70) and
*not* the pattern-based company-name detection (confidence 100): NER runs
before the custom-entity matcher, so the claim that all pattern-based
detections claim their positions before NER is false. -/
theorem ner_before_custom_counterexample :
    (detectSensitiveInfo [] (cl ("Acme rocks")) cfgCompanyNer (some apiAcmeOrg)).map
      (fun d => (d.subcategory, d.confidence, keyOf d)) =
      [(cl ("organization"), 70, (0, 4))] := by
  decide

/-! ## C5 — NER failure resilience -/

theorem nerPhase_failed {content : List Char} {config : Config} {st : ScanState}
    {f : NerApi} (h : nerFailed (f content config.customEntities.names)) :
    nerPhase content config (some f) st = nerPhase content config none st := by
  unfold nerPhase
  split
  · cases hr : f content config.customEntities.names with
    | error e => simp [hr]
    | ok r =>
        rw [hr] at h
        simp only [nerFailed] at h
        simp [hr, h]
  · rfl

/-- **C5**: if the external recognizer throws, rejects, or returns
`success = false`, the scan returns exactly what it would have returned
with no recognizer available at all — all pattern-based and custom
detections are unaffected and the scan is not aborted. -/
theorem ner_failure_resilient (g : Counters) (content : List Char) (config : Config)
    (f : NerApi) (h : nerFailed (f content config.customEntities.names)) :
    detectSensitiveInfo g content config (some f) =
      detectSensitiveInfo g content config none := by
  unfold detectSensitiveInfo
  split
  · rfl
  · unfold scanPipeline
    rw [nerPhase_failed h]

/-- Witness for C5 at a concrete input. -/
theorem ner_failure_resilient_witness :
    nerFailed (failApi (cl ("1512345678")) cfgPii85.customEntities.names) ∧
      detectSensitiveInfo [] (cl ("1512345678")) cfgPii85 (some failApi) =
        detectSensitiveInfo [] (cl ("1512345678")) cfgPii85 none :=
  ⟨trivial, ner_failure_resilient [] (cl ("1512345678")) cfgPii85 failApi trivial⟩

/-! ## C2 — masking engine -/

theorem lookupA_setA {β : Type} (m : List (List Char × β)) (k : List Char) (v : β)
    (k' : List Char) :
    lookupA (setA m k v) k' = if k = k' then some v else lookupA m k' := by
  induction m with
  | nil =>
      simp only [setA, lookupA]
  | cons p rest ih =>
      obtain ⟨k0, v0⟩ := p
      simp only [setA]
      by_cases h0 : k0 = k
      · subst h0
        simp only [if_pos rfl, lookupA]
        by_cases h1 : k0 = k'
        · simp [h1]
        · simp [h1]
      · rw [if_neg h0]
        simp only [lookupA]
        by_cases h1 : k0 = k'
        · subst h1
          have : ¬ k = k0 := fun h => h0 h.symm
          simp [this]
        · simp [h1, ih]

theorem setA_setA_same {β : Type} (m : List (List Char × β)) (k : List Char)
    (v w : β) : setA (setA m k v) k w = setA m k w := by
  induction m with
  | nil => simp [setA]
  | cons p rest ih =>
      obtain ⟨k0, v0⟩ := p
      by_cases h0 : k0 = k
      · subst h0
        simp [setA]
      · simp [setA, h0, ih]

theorem lookupA_snoc_self {β : Type} {m : List (List Char × β)} {k : List Char}
    {v : β} (h : lookupA m k = none) : lookupA (m ++ [(k, v)]) k = some v := by
  induction m with
  | nil => simp [lookupA]
  | cons p rest ih =>
      obtain ⟨k0, v0⟩ := p
      simp only [lookupA] at h ⊢
      by_cases h0 : k0 = k
      · simp [h0] at h
      · simp only [if_neg h0] at h ⊢
        exact ih h

theorem nodup_snoc {α : Type} {l : List α} {x : α} (h : l.Nodup) (hx : x ∉ l) :
    (l ++ [x]).Nodup := by
  induction l with
  | nil => simp
  | cons a as ih =>
      rw [List.nodup_cons] at h
      rw [List.cons_append, List.nodup_cons]
      refine ⟨?_, ih h.2 (fun hmem => hx (List.mem_cons_of_mem a hmem))⟩
      intro hmem
      rcases List.mem_append.mp hmem with h1 | h2
      · exact h.1 h1
      · have : a = x := by simpa using h2
        exact hx (this ▸ List.mem_cons_self a as)

theorem filter_idem {α : Type} (p : α → Bool) :
    ∀ l : List α, (l.filter p).filter p = l.filter p
  | [] => rfl
  | a :: l => by
      by_cases h : p a
      · simp [List.filter_cons, h, filter_idem p l]
      · simp [List.filter_cons, h, filter_idem p l]

/-- One masking step keeps every mapping value list duplicate-free. -/
theorem maskStep_nodup {acc : List Char × Mappings} {d : Detection}
    (h : MappingsNodup acc.2) : MappingsNodup (maskStep acc d).2 := by
  intro p l hl
  unfold maskStep at hl
  rw [lookupA_setA] at hl
  split at hl
  · cases hl
    split
    · rename_i hmem
      cases hlook : lookupA acc.2 d.suggestedPlaceholder with
      | none => simp [hlook]
      | some l0 => simpa [hlook] using h _ _ hlook
    · rename_i hmem
      cases hlook : lookupA acc.2 d.suggestedPlaceholder with
      | none => simp [hlook]
      | some l0 =>
          rw [hlook] at hmem
          simp only [Option.getD_some] at hmem ⊢
          exact nodup_snoc (h _ _ hlook) hmem
  · exact h p l hl

/-- **C2**: `applyMasking` is pure and rewrites exactly the approved
detections — masking the empty detection list is the identity with an empty
mapping, unapproved detections contribute nothing (masking the approved
sublist gives the same result as masking the full list), and every
placeholder's recorded original-value list is deduplicated. -/
theorem applyMasking_spec :
    (∀ content, applyMasking content [] = (content, [])) ∧
    (∀ content detections,
      applyMasking content (detections.filter (fun d => d.approved)) =
        applyMasking content detections) ∧
    (∀ content detections p l,
      lookupA (applyMasking content detections).2 p = some l → l.Nodup) := by
  refine ⟨fun content => rfl, ?_, ?_⟩
  · intro content detections
    unfold applyMasking
    rw [filter_idem]
  · intro content detections p l
    refine foldl_pres (fun acc : List Char × Mappings => MappingsNodup acc.2)
      (fun acc d h => maskStep_nodup h) _ _ ?_ p l
    intro p l hl
    simp [lookupA] at hl

/-- Witness for C2 on the masking round-trip scenario. -/
theorem applyMasking_spec_witness :
    lookupA (applyMasking (cl ("Email me at a@b.com")) [emailDet]).2
        (cl ("<EMAIL_1>")) = some [cl ("a@b.com")] ∧
      (applyMasking (cl ("Email me at a@b.com")) [emailDet]).1 =
        cl ("Email me at <EMAIL_1>") ∧
      [cl ("a@b.com")].Nodup :=
  ⟨by decide, by decide,
    applyMasking_spec.2.2 (cl ("Email me at a@b.com")) [emailDet]
      (cl ("<EMAIL_1>")) [cl ("a@b.com")] (by decide)⟩

/-! ## C3 — placeholder allocator -/

/-- A second allocation in the same family with an equally-normalized text
returns the same placeholder and leaves the allocator state unchanged. -/
theorem getPlaceholder_stable (c : Counters) (t x x' : List Char)
    (hnorm : trimJS (lowerJS x') = trimJS (lowerJS x)) :
    getPlaceholder (getPlaceholder c t x).2 t x' = getPlaceholder c t x := by
  simp only [getPlaceholder, hnorm]
  rw [lookupA_setA, if_pos rfl, Option.getD_some]
  by_cases hn : (lookupA ((lookupA c (replaceFirst (cl ("_\x7bn\x7d")) [] t)).getD [])
      (trimJS (lowerJS x))).isNone
  · rw [if_pos hn]
    have hnone := Option.isNone_iff_eq_none.mp hn
    simp [lookupA_snoc_self hnone, setA_setA_same]
  · rw [if_neg hn]
    obtain ⟨n, hsome⟩ : ∃ n,
        lookupA ((lookupA c (replaceFirst (cl ("_\x7bn\x7d")) [] t)).getD [])
          (trimJS (lowerJS x)) = some n := by
      cases hcase : lookupA ((lookupA c (replaceFirst (cl ("_\x7bn\x7d")) [] t)).getD [])
          (trimJS (lowerJS x)) with
      | none => exact absurd (by simp [hcase]) hn
      | some n => exact ⟨n, rfl⟩
    simp [hsome, setA_setA_same]

/-- A fresh normalized value receives the next ordinal: one more than the
number of distinct values already registered in its family (so the first
value of a family receives 1). -/
theorem getPlaceholder_fresh (c : Counters) (t x : List Char)
    (h : lookupA ((lookupA c (replaceFirst (cl ("_\x7bn\x7d")) [] t)).getD [])
        (trimJS (lowerJS x)) = none) :
    (getPlaceholder c t x).1 =
      replaceFirst (cl ("\x7bn\x7d"))
        (Nat.repr
          (((lookupA c (replaceFirst (cl ("_\x7bn\x7d")) [] t)).getD []).length + 1)).data
        t := by
  simp only [getPlaceholder]
  rw [h]
  simp [lookupA_snoc_self h]

/-- A lookup that succeeds in an association list still succeeds, with the
same value, after any entries are appended. -/
theorem lookupA_append_some {β : Type} {m m' : List (List Char × β)} {k : List Char}
    {v : β} (h : lookupA m k = some v) : lookupA (m ++ m') k = some v := by
  induction m with
  | nil => simp [lookupA] at h
  | cons p rest ih =>
      obtain ⟨k0, v0⟩ := p
      rw [List.cons_append]
      simp only [lookupA] at h ⊢
      split at h
      · rename_i heq
        rw [if_pos heq]
        exact h
      · rename_i heq
        rw [if_neg heq]
        exact ih h

/-- An allocation for a value that is already bound to `n` renders `n` into
the template and keeps the binding. -/
theorem getPlaceholder_bound (c : Counters) (t x : List Char) (n : Nat)
    (h : ordinalOf c t x = some n) :
    (getPlaceholder c t x).1 = replaceFirst (cl ("\x7bn\x7d")) (Nat.repr n).data t ∧
      ordinalOf (getPlaceholder c t x).2 t x = some n := by
  unfold ordinalOf at h
  unfold getPlaceholder ordinalOf
  simp [h, lookupA_setA]

/-- After a fresh allocation the value is bound to family size + 1. -/
theorem getPlaceholder_fresh_post (c : Counters) (t x : List Char)
    (h : ordinalOf c t x = none) :
    ordinalOf (getPlaceholder c t x).2 t x =
      some (((lookupA c (replaceFirst (cl ("_\x7bn\x7d")) [] t)).getD []).length + 1) := by
  unfold ordinalOf at h
  unfold getPlaceholder ordinalOf
  simp [h, lookupA_setA, lookupA_snoc_self h]

/-- Persistence: one further allocation — same or different family, same or
different text — never disturbs an existing binding.  (`getPlaceholder`
only ever appends to a family map and replaces exactly the touched family
in the outer map.) -/
theorem getPlaceholder_persists (c : Counters) (t' y t x : List Char) (n : Nat)
    (h : ordinalOf c t x = some n) :
    ordinalOf (getPlaceholder c t' y).2 t x = some n := by
  unfold ordinalOf at h
  unfold getPlaceholder ordinalOf
  rw [lookupA_setA]
  by_cases hb : replaceFirst (cl ("_\x7bn\x7d")) [] t' =
      replaceFirst (cl ("_\x7bn\x7d")) [] t
  · rw [if_pos hb, Option.getD_some, hb]
    split
    · exact lookupA_append_some h
    · exact h
  · rw [if_neg hb]
    exact h

/-- Persistence through any sequence of intervening allocations. -/
theorem getPlaceholder_persists_chain :
    ∀ (others : List (List Char × List Char)) (c : Counters) (t x : List Char)
      (n : Nat), ordinalOf c t x = some n →
      ordinalOf (allocMany c others) t x = some n
  | [], _, _, _, _, h => h
  | (t', y) :: rest, c, t, x, n, h =>
      getPlaceholder_persists_chain rest (getPlaceholder c t' y).2 t x n
        (getPlaceholder_persists c t' y t x n h)

/-- **C3**: the allocator keys ordinals per placeholder family by the
lower-cased, trimmed matched text; the binding only depends on that
normalization; a bound value always renders its ordinal and stays bound; a
fresh value gets the next integer (family size + 1, hence 1 for a new
family); a binding survives *any* sequence of intervening allocations, so
every later occurrence of the same normalized value — however many other
values were allocated in between — receives the same placeholder; and the
module-level counter state present before a scan cannot influence the
scan's result because `detectSensitiveInfo` resets it first. -/
theorem placeholder_allocator_spec :
    (∀ c t x x', trimJS (lowerJS x') = trimJS (lowerJS x) →
      ordinalOf c t x' = ordinalOf c t x) ∧
    (∀ c t x n, ordinalOf c t x = some n →
      (getPlaceholder c t x).1 = replaceFirst (cl ("\x7bn\x7d")) (Nat.repr n).data t ∧
        ordinalOf (getPlaceholder c t x).2 t x = some n) ∧
    (∀ c t x, ordinalOf c t x = none →
      (getPlaceholder c t x).1 =
        replaceFirst (cl ("\x7bn\x7d"))
          (Nat.repr
            (((lookupA c (replaceFirst (cl ("_\x7bn\x7d")) [] t)).getD []).length + 1)).data
          t ∧
        ordinalOf (getPlaceholder c t x).2 t x =
          some (((lookupA c (replaceFirst (cl ("_\x7bn\x7d")) [] t)).getD []).length + 1)) ∧
    (∀ c t' y t x n, ordinalOf c t x = some n →
      ordinalOf (getPlaceholder c t' y).2 t x = some n) ∧
    (∀ c t x n others, ordinalOf c t x = some n →
      (getPlaceholder (allocMany c others) t x).1 =
        replaceFirst (cl ("\x7bn\x7d")) (Nat.repr n).data t) ∧
    (∀ g g' content config api,
      detectSensitiveInfo g content config api =
        detectSensitiveInfo g' content config api) :=
  ⟨fun c t x x' hnorm => by unfold ordinalOf; rw [hnorm],
    getPlaceholder_bound,
    fun c t x h =>
      ⟨getPlaceholder_fresh c t x (by simpa [ordinalOf] using h),
        getPlaceholder_fresh_post c t x h⟩,
    getPlaceholder_persists,
    fun c t x n others h =>
      (getPlaceholder_bound (allocMany c others) t x n
        (getPlaceholder_persists_chain others c t x n h)).1,
    fun _ _ _ _ _ => rfl⟩

/-- Witness for C3: `"John"` is allocated `<PERSON_1>`; after the
intervening allocations of `"Jane"` in the same family and `"Acme"` in the
organization family, the later occurrence `"john "` (same normalization)
still renders ordinal 1. -/
theorem placeholder_allocator_spec_witness :
    ordinalOf (getPlaceholder [] (cl ("<PERSON_\x7bn\x7d>")) (cl ("John"))).2
        (cl ("<PERSON_\x7bn\x7d>")) (cl ("john ")) = some 1 ∧
      (getPlaceholder
          (allocMany (getPlaceholder [] (cl ("<PERSON_\x7bn\x7d>")) (cl ("John"))).2
            [(cl ("<PERSON_\x7bn\x7d>"), cl ("Jane")),
              (cl ("<ORGANIZATION_\x7bn\x7d>"), cl ("Acme"))])
          (cl ("<PERSON_\x7bn\x7d>")) (cl ("john "))).1 =
        replaceFirst (cl ("\x7bn\x7d")) (Nat.repr 1).data (cl ("<PERSON_\x7bn\x7d>")) :=
  ⟨by decide,
    placeholder_allocator_spec.2.2.2.2.1
      (getPlaceholder [] (cl ("<PERSON_\x7bn\x7d>")) (cl ("John"))).2
      (cl ("<PERSON_\x7bn\x7d>")) (cl ("john ")) 1
      [(cl ("<PERSON_\x7bn\x7d>"), cl ("Jane")),
        (cl ("<ORGANIZATION_\x7bn\x7d>"), cl ("Acme"))]
      (by decide)⟩

/-! ## C7 — Luhn validator -/

/-- The source's alternating-flag loop computes the specification sum. -/
theorem luhnLoop_eq_spec : ∀ l : List Nat, luhnLoop l false = luhnSpecSum l
  | [] => rfl
  | [d] => by simp [luhnLoop, luhnSpecSum]
  | d :: e :: rest => by
      have ih := luhnLoop_eq_spec rest
      simp [luhnLoop, luhnSpecSum, ih]
      omega

/-- **C7**: the Luhn validator strips non-digits, rejects digit counts
outside 13..19, and otherwise accepts exactly when the rightmost-first
doubled-alternate checksum is divisible by 10; `4532015112830366` passes
and `4532015112830367` fails. -/
theorem luhn_validator_spec :
    (∀ num, isValidLuhn num = isValidLuhn (num.filter Char.isDigit)) ∧
    (∀ num, (num.filter Char.isDigit).length < 13 ∨
        19 < (num.filter Char.isDigit).length → isValidLuhn num = false) ∧
    (∀ num, 13 ≤ (num.filter Char.isDigit).length ∧
        (num.filter Char.isDigit).length ≤ 19 →
      (isValidLuhn num = true ↔
        luhnSpecSum ((num.filter Char.isDigit).reverse.map charToDigit) % 10 = 0)) ∧
    isValidLuhn (cl ("4532015112830366")) = true ∧
    isValidLuhn (cl ("4532015112830367")) = false := by
  refine ⟨?_, ?_, ?_, by decide, by decide⟩
  · intro num
    unfold isValidLuhn
    rw [filter_idem]
  · intro num h
    unfold isValidLuhn
    rcases h with h | h
    · rw [if_pos]
      simp [h]
    · rw [if_pos]
      simp
      omega
  · intro num h
    unfold isValidLuhn
    rw [if_neg (by simp; omega), luhnLoop_eq_spec]
    simp [decide_eq_true_eq]

/-- Witness for C7 at the valid test vector. -/
theorem luhn_validator_spec_witness :
    (13 ≤ ((cl ("4532015112830366")).filter Char.isDigit).length ∧
      ((cl ("4532015112830366")).filter Char.isDigit).length ≤ 19) ∧
      luhnSpecSum
        (((cl ("4532015112830366")).filter Char.isDigit).reverse.map charToDigit) %
          10 = 0 :=
  ⟨by decide,
    (luhn_validator_spec.2.2.1 (cl ("4532015112830366")) (by decide)).mp (by decide)⟩

/-! ## C9 — internal-domain detection -/

/-- **C9** (counterexample): the text `"see corp.local now"` contains the
configured internal domain `corp.local` as a bare standalone mention, the
`technical` category is enabled, and yet the scan returns no detection at
all: the second regex alternative demands a `.` before the domain, so a
bare mention of the domain itself never matches. -/
theorem internal_domain_bare_counterexample :
    hasSubstr (cl ("corp.local")) (cl ("see corp.local now")) = true ∧
      detectSensitiveInfo [] (cl ("see corp.local now")) cfgInternalDomain none = [] :=
  ⟨by decide, by decide⟩

/-- **C9** (amended): internal-domain detection matches URLs containing the
domain as a substring and dotted host mentions of the form
`<label>.<domain>`, each producing an `internal_url` detection — but not a
bare standalone mention of the domain itself. -/
theorem internal_domain_detection :
    ((detectSensitiveInfo [] (cl ("go http://corp.local/x")) cfgInternalDomain none).map
        (fun d => (d.subcategory, keyOf d)) = [(cl ("internal_url"), (3, 22))]) ∧
      ((detectSensitiveInfo [] (cl ("an a.corp.local box")) cfgInternalDomain none).map
        (fun d => (d.subcategory, keyOf d)) = [(cl ("internal_url"), (3, 15))]) :=
  ⟨by decide, by decide⟩

/-! ## C10 — the minimum-confidence threshold applies only to built-in rules -/

/-- **C10**: NER-derived and custom-entity detections are never filtered by
`minConfidence`: a scan with `minConfidence = 90` and `pii` enabled still
returns the confidence-75 person detection, and the NER, company, domain
and custom phases are all literally independent of the configured
minimum confidence. -/
theorem min_confidence_only_builtin :
    ((detectSensitiveInfo [] (cl ("hi bob here")) cfgPii90 (some apiBobPerson)).map
        (fun d => (d.subcategory, d.confidence)) = [(cl ("person_name"), 75)]) ∧
      cfgPii90.detectionSettings.minConfidence = 90 ∧ 75 < 90 ∧
      (∀ content config api st m,
        nerPhase content (setMinConfidence config m) api st =
          nerPhase content config api st) ∧
      (∀ content config st m,
        companyPhase content (setMinConfidence config m) st =
          companyPhase content config st) ∧
      (∀ content config st m,
        domainPhase content (setMinConfidence config m) st =
          domainPhase content config st) ∧
      (∀ content config st m,
        customPhase content (setMinConfidence config m) st =
          customPhase content config st) :=
  ⟨by decide, rfl, by decide,
    fun _ _ _ _ _ => rfl, fun _ _ _ _ => rfl, fun _ _ _ _ => rfl, fun _ _ _ _ => rfl⟩

end DocSanitizer
